import Mathlib

/-!
Verification development for the `bevy_invaders` game core (`src/main.rs`).

The game is a Bevy 0.10 application.  We shallowly embed the state that the
per-tick gameplay systems touch: the entity world (a list of id/record pairs),
the `Scoreboard` resource, the `AppState` state machine driven by
`NextState`, the double-buffered `Events` resources (`ShootingEvent`,
`CollisionEvent`) together with the one registered `EventReader` cursor
(`play_shooting_sound`), and the `Input<KeyCode>` held-state needed for
`just_pressed`.  `f32` arithmetic is modelled exactly over `ℚ`; the claims
checked here (clamping, sign conditions, exact integration) do not depend on
rounding.  One frame of the main schedule is modelled in Bevy 0.10's order:
event update (`First`), input rollover (`PreUpdate`), `apply_state_transition`
with `OnExit`/`OnEnter` schedules (`StateTransition`), then the `Update`
systems gated by `OnUpdate(state)`.  `Commands` (spawn/despawn) are deferred
and applied at the end of the `Update` schedule, as in the source's default
configuration.  Systems that call `Query::single`/`single_mut` panic when the
query does not match exactly one entity; a panic is modelled as `none`.
-/

namespace Invaders

/-- The `WIDTH` from `main.rs`. -/
def WIDTH : ℚ := 1280

/-- The `HEIGHT` from `main.rs`. -/
def HEIGHT : ℚ := 720

/-- The `TIME_STEP` from `main.rs` (1.0 / 60.0). -/
def TIME_STEP : ℚ := 1 / 60

/-- The `BULLET_SPEED` from `main.rs`. -/
def BULLET_SPEED : ℚ := 400

/-- The `PLAYER_SPEED` from `main.rs`. -/
def PLAYER_SPEED : ℚ := 500

/-- The `Color::rgb` values, modelled as exact rational triples. -/
structure Color where
  r : ℚ
  g : ℚ
  b : ℚ
deriving DecidableEq

/-- The `BUTTON_BG_COLOUR` from `main.rs`. -/
def BUTTON_BG_COLOUR : Color := ⟨15/100, 15/100, 15/100⟩

/-- The `BUTTON_GB_COLOUR_HOVERED` from `main.rs`. -/
def BUTTON_GB_COLOUR_HOVERED : Color := ⟨25/100, 25/100, 25/100⟩

/-- The `bevy::Vec3`, used for `Transform::translation` and `Transform::scale`. -/
structure Vec3 where
  x : ℚ
  y : ℚ
  z : ℚ
deriving DecidableEq

/-- The `bevy::Vec2`, used for the `Velocity` component. -/
structure Vec2 where
  x : ℚ
  y : ℚ
deriving DecidableEq

/-- The `bevy::Transform`, restricted to the fields the gameplay systems read. -/
structure Transform where
  translation : Vec3
  scale : Vec3
deriving DecidableEq

/-- The `AppState` states enum from `main.rs`. -/
inductive AppState where
  | Menu
  | GameRunning
  | GameOver
deriving DecidableEq

/-- The `bevy::Interaction`, the button interaction state read by `menu`. -/
inductive Interaction where
  | Clicked
  | Hovered
  | None
deriving DecidableEq

/-- One entity's components, as an open record of optional slots.  The unit
marker components (`Player`, `Bullet`, `Enemy`, `Collider`, `Menu`, `Button`)
become booleans; `Text` keeps the list of section values; `parent` records the
UI hierarchy used by `despawn_recursive`. -/
structure EntityRec where
  transform : Option Transform := none
  velocity : Option Vec2 := none
  text : Option (List String) := none
  parent : Option Nat := none
  isPlayer : Bool := false
  isBullet : Bool := false
  isEnemy : Bool := false
  hasCollider : Bool := false
  isMenuTag : Bool := false
  isButton : Bool := false
  buttonColor : Option Color := none
deriving DecidableEq

/-- Bevy 0.10 `Events<T>` double buffer, for unit event payloads: how many
events sit in the older buffer (`events_a`), in the current-frame buffer
(`events_b`), and the total ever sent (`event_count`). -/
structure Events where
  countA : Nat
  countB : Nat
  eventCount : Nat
deriving DecidableEq

/-- The `Events::update` (run once per frame in `First`): the current buffer
becomes the old one, events already in the old buffer are dropped. -/
def Events.update (e : Events) : Events := ⟨e.countB, 0, e.eventCount⟩

/-- The `EventWriter::send`. -/
def Events.send (e : Events) : Events := ⟨e.countA, e.countB + 1, e.eventCount + 1⟩

/-- Number of events currently held in the double buffer. -/
def Events.total (e : Events) : Nat := e.countA + e.countB

/-- Events an `EventReader` whose cursor is `cursor` can still observe
(`EventReader::len`): all events newer than both the cursor and the oldest
retained event. -/
def readerLen (e : Events) (cursor : Nat) : Nat :=
  e.eventCount - max cursor (e.eventCount - e.countA - e.countB)

/-- The whole mutable state the gameplay systems touch. -/
structure World where
  entities : List (Nat × EntityRec)
  nextId : Nat
  score : Nat
  appState : AppState
  nextState : Option AppState
  shootingEvents : Events
  collisionEvents : Events
  soundCursor : Nat
  soundsPlayed : Nat
  spaceWasHeld : Bool
deriving DecidableEq

/-- The per-frame input snapshot: which keys are held, and the button
interaction change (if any) delivered to `menu`'s `Changed<Interaction>`
query. -/
structure FrameInput where
  left : Bool := false
  right : Bool := false
  space : Bool := false
  interaction : Option Interaction := none
deriving DecidableEq

/-- All entities matching a component query. -/
def queryList (p : EntityRec → Bool) (w : World) : List (Nat × EntityRec) :=
  w.entities.filter (fun e => p e.2)

/-- The `Query::single` / `single_mut`: panics (modelled `none`) unless exactly one
entity matches. -/
def single (p : EntityRec → Bool) (w : World) : Option (Nat × EntityRec) :=
  match queryList p w with
  | [e] => some e
  | _ => none

/-- Write back one entity's components through a mutable query. -/
def setEntity (w : World) (id : Nat) (er : EntityRec) : World :=
  { w with entities := w.entities.map (fun e => if e.1 = id then (id, er) else e) }

/-- Entity lookup by id (first match). -/
def lfind : List (Nat × EntityRec) → Nat → Option EntityRec
  | [], _ => none
  | e :: rest, id => if e.1 = id then some e.2 else lfind rest id

/-- Entity lookup by id in a world. -/
def World.lookup (w : World) (id : Nat) : Option EntityRec :=
  lfind w.entities id

/-- Rust `f32::clamp` (callers guarantee `lo ≤ hi`). -/
def clampR (x lo hi : ℚ) : ℚ :=
  if x < lo then lo else if x > hi then hi else x

/-- The `Query<&mut Transform, With<Player>>` filter. -/
def playerQuery (er : EntityRec) : Bool := er.isPlayer && er.transform.isSome

/-- The `Query<&mut Text>` filter of `update_scoreboard`. -/
def textQuery (er : EntityRec) : Bool := er.text.isSome

/-- The `move_player` from `main.rs`: reads the single player transform, builds a
direction in `{-1, 0, 1}` from the held arrow keys (`direction` starts at `0`,
`-= 1` on Left, `+= 1` on Right), advances x by
`direction * PLAYER_SPEED * TIME_STEP` and clamps it to the playfield margins.
`Query::single_mut` panics (`none`) without exactly one player. -/
def move_player (inp : FrameInput) (w : World) : Option World :=
  match single playerQuery w with
  | none => none
  | some (id, er) =>
    match er.transform with
    | none => none
    | some t =>
      let direction : ℚ := (if inp.left then -1 else 0) + (if inp.right then 1 else 0)
      let new_position : ℚ := t.translation.x + direction * PLAYER_SPEED * TIME_STEP
      let left_bound : ℚ := -(WIDTH / 2) + 32
      let right_bound : ℚ := WIDTH / 2 - 32
      some (setEntity w id
        { er with transform := some { t with translation :=
            { t.translation with x := clampR new_position left_bound right_bound } } })

/-- The bullet's `Velocity`: `Vec2::new(0.0, 1.0).normalize() * BULLET_SPEED`;
`(0, 1)` is already unit length, so this is exactly `(0, BULLET_SPEED)`. -/
def bulletVelocity : Vec2 := ⟨0, BULLET_SPEED⟩

/-- The entity spawned by `player_shoot`: a `MaterialMesh2dBundle` (default
transform translated to the spawn position), the `Bullet` marker and a
`Velocity`.  Note: the source attaches no `Collider` to bullets. -/
def bulletAt (x y : ℚ) : EntityRec :=
  { transform := some { translation := ⟨x, y, 0⟩, scale := ⟨1, 1, 1⟩ },
    velocity := some bulletVelocity,
    isBullet := true }

/-- The `player_shoot` from `main.rs`: reads the single player transform and, when
Space was just pressed this frame, sends a `ShootingEvent`, queues one bullet
spawn at `Vec3::new(player.x, player.y, 0.0)` (a deferred `Commands::spawn`,
returned as the pending-spawn list), and increments the scoreboard. -/
def player_shoot (justPressed : Bool) (w : World) : Option (World × List EntityRec) :=
  match single playerQuery w with
  | none => none
  | some (_, er) =>
    match er.transform with
    | none => none
    | some t =>
      if justPressed then
        some ({ w with
                  shootingEvents := w.shootingEvents.send,
                  score := w.score + 1 },
              [bulletAt t.translation.x t.translation.y])
      else
        some (w, [])

/-- The loop body of `apply_velocity` on one entity: entities carrying both a
`Transform` and a `Velocity` get `translation.y += velocity.y * TIME_STEP` and
`translation.x += velocity.x * TIME_STEP`; every other entity is untouched. -/
def integrateEntity (er : EntityRec) : EntityRec :=
  match er.transform, er.velocity with
  | some t, some v =>
    { er with transform := some { t with translation :=
        { t.translation with
            y := t.translation.y + v.y * TIME_STEP,
            x := t.translation.x + v.x * TIME_STEP } } }
  | _, _ => er

/-- The `apply_velocity` from `main.rs`. -/
def apply_velocity (w : World) : World :=
  { w with entities := w.entities.map (fun e => (e.1, integrateEntity e.2)) }

/-- The `update_scoreboard` from `main.rs`: `Query<&mut Text>::single_mut` (panics
without exactly one `Text` entity), then `text.sections[1].value =
score.to_string()` (indexing panics when section 1 does not exist). -/
def update_scoreboard (w : World) : Option World :=
  match single textQuery w with
  | none => none
  | some (id, er) =>
    match er.text with
    | none => none
    | some sections =>
      if 1 < sections.length then
        some (setEntity w id { er with text := some (sections.set 1 (toString w.score)) })
      else none

/-- The `collision_check` from `main.rs`: an empty function body ("TODO: Check if
bullets hit enemies/player"). -/
def collision_check (w : World) : World := w

/-- The `play_shooting_sound` from `main.rs`: if the `ShootingEvent` reader is
non-empty, clear the reader's cursor and play the sound (modelled by the
`soundsPlayed` counter). -/
def play_shooting_sound (w : World) : World :=
  if readerLen w.shootingEvents w.soundCursor ≠ 0 then
    { w with soundCursor := w.shootingEvents.eventCount,
             soundsPlayed := w.soundsPlayed + 1 }
  else w

/-- The `Query<(Entity, &Transform), With<Bullet>>` offscreen test of
`remove_offscreen_entities`: `transform.translation.y < -HEIGHT / 2.0`. -/
def offscreenBullet (er : EntityRec) : Bool :=
  er.isBullet &&
    (match er.transform with
     | some t => decide (t.translation.y < -(HEIGHT / 2))
     | none => false)

/-- The `remove_offscreen_entities` from `main.rs`: queues a deferred despawn
(`Commands::despawn`) for every bullet below the bottom edge; returns the
pending despawn list. -/
def remove_offscreen_entities (w : World) : World × List Nat :=
  (w, (w.entities.filter (fun e => offscreenBullet e.2)).map Prod.fst)

/-- Apply deferred `Commands::spawn`s (fresh ids from the id counter). -/
def commitSpawns (pend : List EntityRec) (w : World) : World :=
  match pend with
  | [] => w
  | er :: rest =>
      commitSpawns rest
        { w with entities := w.entities ++ [(w.nextId, er)], nextId := w.nextId + 1 }

/-- Apply deferred `Commands::despawn`s (despawning a missing id is a no-op). -/
def commitDespawns (ids : List Nat) (w : World) : World :=
  { w with entities := w.entities.filter (fun e => !(ids.contains e.1)) }

/-- One pass of the `OnUpdate(AppState::GameRunning)` system set, in a valid
topological order of the declared constraints (`apply_velocity` before
`collision_check`, `move_player` after `apply_velocity` and before
`collision_check`, `remove_offscreen_entities` after `apply_velocity`,
`play_shooting_sound` after `player_shoot`), with the deferred `Commands`
applied at the end of the schedule. -/
def runningUpdate (inp : FrameInput) (justPressed : Bool) (w : World) : Option World :=
  match move_player inp (apply_velocity w) with
  | none => none
  | some w1 =>
    match player_shoot justPressed w1 with
    | none => none
    | some (w2, pendingBullets) =>
      let w3 := collision_check w2
      let (w4, despawns) := remove_offscreen_entities w3
      let w5 := play_shooting_sound w4
      match update_scoreboard w5 with
      | none => none
      | some w6 => some (commitDespawns despawns (commitSpawns pendingBullets w6))

/-- The camera entity spawned in the startup `setup` system
(`Camera2dBundle::default()` carries a default `Transform`). -/
def cameraEnt : EntityRec :=
  { transform := some { translation := ⟨0, 0, 0⟩, scale := ⟨1, 1, 1⟩ } }

/-- Default transform carried by the UI bundles (`NodeBundle`, `ButtonBundle`,
`TextBundle`); its value is managed by the (external) layout system and read by
no gameplay system. -/
def uiXform : Transform := { translation := ⟨0, 0, 0⟩, scale := ⟨1, 1, 1⟩ }

/-- The menu root node: `NodeBundle` plus the `Menu` marker. -/
def menuRootEnt : EntityRec := { transform := some uiXform, isMenuTag := true }

/-- The "Start Game" button: `ButtonBundle` with the given background colour,
child of the menu root. -/
def buttonEnt (parentId : Nat) (c : Color) : EntityRec :=
  { transform := some uiXform, parent := some parentId,
    isButton := true, buttonColor := some c }

/-- The "Start Game" label: a one-section `TextBundle`, child of the button. -/
def menuTextEnt (parentId : Nat) : EntityRec :=
  { transform := some uiXform, parent := some parentId,
    text := some ["Start Game"] }

/-- The `menu_setup` from `main.rs`: spawns the menu root with a button child and a
text grandchild (commands applied at the end of the `OnEnter(Menu)`
schedule). -/
def menu_setup (w : World) : World :=
  { w with
      entities := w.entities ++
        [(w.nextId, menuRootEnt),
         (w.nextId + 1, buttonEnt w.nextId BUTTON_BG_COLOUR),
         (w.nextId + 2, menuTextEnt (w.nextId + 1))],
      nextId := w.nextId + 3 }

/-- Whether `id` is a `Menu`-tagged entity or a (transitive) child of one, so
`despawn_recursive` on the `Menu` roots removes it.  `fuel` bounds the parent
chain (instantiated with the entity count). -/
def hasMenuAncestor (w : World) : Nat → Nat → Bool
  | 0, _ => false
  | fuel + 1, id =>
    match w.lookup id with
    | none => false
    | some er =>
      er.isMenuTag ||
        (match er.parent with
         | some p => hasMenuAncestor w fuel p
         | none => false)

/-- The `menu_cleanup` from `main.rs`: `despawn_recursive` on every entity with the
`Menu` component, i.e. the menu roots and all their descendants. -/
def menu_cleanup (w : World) : World :=
  { w with entities :=
      w.entities.filter (fun e => !(hasMenuAncestor w w.entities.length e.1)) }

/-- Sets the `BackgroundColor` of every `Button` entity (the loop body of
`menu` for the `Hovered` / `Interaction::None` arms). -/
def setButtonColors (c : Color) (w : World) : World :=
  { w with entities := w.entities.map (fun e =>
      if e.2.isButton then (e.1, { e.2 with buttonColor := some c }) else e) }

/-- The `menu` from `main.rs`: for the frame's changed button interaction (if any):
`Clicked` requests the `GameRunning` state, `Hovered` / `None` recolour the
button. -/
def menu (inp : FrameInput) (w : World) : World :=
  match inp.interaction with
  | none => w
  | some i =>
    match i with
    | .Clicked => { w with nextState := some .GameRunning }
    | .Hovered => setButtonColors BUTTON_GB_COLOUR_HOVERED w
    | .None => setButtonColors BUTTON_BG_COLOUR w

/-- The `player_y` from `game_setup`: `-(HEIGHT / 2.0) + 50.0`. -/
def playerY : ℚ := -(HEIGHT / 2) + 50

/-- The player entity spawned by `game_setup`: a sprite at `(0, player_y, 0)`
scaled by `(2, 2, 1)`, with the `Player` and `Collider` markers. -/
def playerEnt (x : ℚ) : EntityRec :=
  { transform := some { translation := ⟨x, playerY, 0⟩, scale := ⟨2, 2, 1⟩ },
    isPlayer := true, hasCollider := true }

/-- The scoreboard `TextBundle` spawned by `game_setup`: two sections, the
fixed "Score: " label and the (initially empty) value section. -/
def scoreTextEnt (s : String) : EntityRec :=
  { transform := some uiXform, text := some ["Score: ", s] }

/-- The `game_setup` from `main.rs`: spawns the player and the scoreboard text.
Note: it does not touch the `Scoreboard` resource. -/
def game_setup (w : World) : World :=
  { w with
      entities := w.entities ++
        [(w.nextId, playerEnt 0), (w.nextId + 1, scoreTextEnt ("" : String))],
      nextId := w.nextId + 2 }

/-- The `OnExit` schedules registered in `main`. -/
def runOnExit (s : AppState) (w : World) : World :=
  match s with
  | .Menu => menu_cleanup w
  | _ => w

/-- The `OnEnter` schedules registered in `main`. -/
def runOnEnter (s : AppState) (w : World) : World :=
  match s with
  | .Menu => menu_setup w
  | .GameRunning => game_setup w
  | .GameOver => w

/-- Bevy 0.10 `apply_state_transition`: when a next state is queued and
differs from the current one, run `OnExit(old)`, switch, run `OnEnter(new)`. -/
def apply_state_transition (w : World) : World :=
  match w.nextState with
  | none => w
  | some s =>
    if s = w.appState then { w with nextState := none }
    else
      runOnEnter s
        { runOnExit w.appState { w with nextState := none } with appState := s }

/-- The `First`-schedule event maintenance (`Events::update` for the two
registered event types). -/
def eventsFirst (w : World) : World :=
  { w with shootingEvents := w.shootingEvents.update,
           collisionEvents := w.collisionEvents.update }

/-- One frame of the app's main schedule: event update (`First`), keyboard
state rollover (`PreUpdate`, fixing this frame's `just_pressed`),
`apply_state_transition` (`StateTransition`), then the `Update` systems gated
on the current state (only the `menu` system in `Menu`, the gameplay set in
`GameRunning`, nothing in `GameOver`). -/
def frame (inp : FrameInput) (w : World) : Option World :=
  let w0 := eventsFirst w
  let justPressed := inp.space && !w0.spaceWasHeld
  let w1 := { w0 with spaceWasHeld := inp.space }
  let w2 := apply_state_transition w1
  match w2.appState with
  | .Menu => some (menu inp w2)
  | .GameRunning => runningUpdate inp justPressed w2
  | .GameOver => some w2

/-- The world after startup: the `setup` startup system (camera spawn) and the
initial `OnEnter(Menu)` (`menu_setup`), with the `Scoreboard` resource at its
`main`-inserted value `0` and the default `Menu` state. -/
def startupWorld : World :=
  { entities := [], nextId := 0, score := 0, appState := .Menu, nextState := none,
    shootingEvents := ⟨0, 0, 0⟩, collisionEvents := ⟨0, 0, 0⟩,
    soundCursor := 0, soundsPlayed := 0, spaceWasHeld := false }

/-- Startup `setup` system: spawns the camera (the audio handle resource is
opaque to the gameplay systems and not modelled). -/
def setupStartup (w : World) : World :=
  { w with entities := w.entities ++ [(w.nextId, cameraEnt)], nextId := w.nextId + 1 }

/-- The initial world seen by the first frame. -/
def init : World := menu_setup (setupStartup startupWorld)

/-- Run a sequence of frames. -/
def runFrames : List FrameInput → World → Option World
  | [], w => some w
  | i :: rest, w =>
    match frame i w with
    | none => none
    | some w' => runFrames rest w'

/-- A world is reachable when some input sequence produces it from `init`. -/
def Reachable (w : World) : Prop := ∃ l, runFrames l init = some w

/-- The bullet entities of a running world, ids consecutive from `n`. -/
def bulletEntities : Nat → List (ℚ × ℚ) → List (Nat × EntityRec)
  | _, [] => []
  | n, q :: rest => (n, bulletAt q.1 q.2) :: bulletEntities (n + 1) rest

/-- Canonical form of every reachable `Menu`-state world: camera, menu root,
button (some colour), label; score 0; no events yet. -/
def mkMenu (c : Color) (held : Bool) (ns : Option AppState) : World :=
  { entities := [(0, cameraEnt), (1, menuRootEnt), (2, buttonEnt 1 c), (3, menuTextEnt 2)],
    nextId := 4, score := 0, appState := .Menu, nextState := ns,
    shootingEvents := ⟨0, 0, 0⟩, collisionEvents := ⟨0, 0, 0⟩,
    soundCursor := 0, soundsPlayed := 0, spaceWasHeld := held }

/-- Canonical form of every reachable `GameRunning`-state world: camera (id 0),
player (id 4), scoreboard text (id 5) and the bullets (consecutive ids from
6); the sound reader's cursor always equals the total event count. -/
def mkRunning (px : ℚ) (s : String) (bl : List (ℚ × ℚ)) (sc : Nat)
    (ec cA cB : Nat) (held : Bool) (pl : Nat) : World :=
  { entities := [(0, cameraEnt), (4, playerEnt px), (5, scoreTextEnt s)] ++ bulletEntities 6 bl,
    nextId := 6 + bl.length, score := sc, appState := .GameRunning, nextState := none,
    shootingEvents := ⟨cA, cB, ec⟩, collisionEvents := ⟨0, 0, 0⟩,
    soundCursor := ec, soundsPlayed := pl, spaceWasHeld := held }

/-- Horizontal intent direction of a frame input. -/
def dirOf (inp : FrameInput) : ℚ :=
  (if inp.left then -1 else 0) + (if inp.right then 1 else 0)

/-- The `left_bound` of `move_player`. -/
def leftBound : ℚ := -(WIDTH / 2) + 32

/-- The `right_bound` of `move_player`. -/
def rightBound : ℚ := WIDTH / 2 - 32

/-- The player's x after one `move_player` step from `x`. -/
def stepX (inp : FrameInput) (x : ℚ) : ℚ :=
  clampR (x + dirOf inp * PLAYER_SPEED * TIME_STEP) leftBound rightBound

/-- One `apply_velocity` step on the bullet position list. -/
def stepBullets (bl : List (ℚ × ℚ)) : List (ℚ × ℚ) :=
  bl.map (fun q => (q.1 + bulletVelocity.x * TIME_STEP, q.2 + bulletVelocity.y * TIME_STEP))

/-- Invariant on running worlds: canonical form, bullets never below the
player's spawn row, player within the clamp bounds. -/
def InvRunning (w : World) : Prop :=
  ∃ px s bl sc ec cA cB held pl,
    w = mkRunning px s bl sc ec cA cB held pl ∧
    (∀ q ∈ bl, playerY ≤ q.2) ∧
    leftBound ≤ px ∧ px ≤ rightBound

/-- Invariant on menu worlds: canonical form, only `GameRunning` ever queued. -/
def InvMenu (w : World) : Prop :=
  ∃ c held ns, w = mkMenu c held ns ∧ (ns = none ∨ ns = some .GameRunning)

/-- The global reachability invariant. -/
def Inv (w : World) : Prop := InvMenu w ∨ InvRunning w

/-- Button colour after one `menu` pass. -/
def menuColor (inp : FrameInput) (c : Color) : Color :=
  match inp.interaction with
  | some .Hovered => BUTTON_GB_COLOUR_HOVERED
  | some .None => BUTTON_BG_COLOUR
  | _ => c

/-- Queued next state after one `menu` pass. -/
def menuNext (inp : FrameInput) : Option AppState :=
  if inp.interaction = some .Clicked then some .GameRunning else none

/-- A run-of-the-mill "click the start button" input frame. -/
def iClick : FrameInput := { interaction := some .Clicked }

/-- An idle input frame. -/
def iNull : FrameInput := {}

/-- A frame with the Space key held. -/
def iSpace : FrameInput := { space := true }

/-- Number of `Bullet` entities in the world. -/
def bulletCount (w : World) : Nat :=
  (w.entities.filter (fun e => e.2.isBullet)).length

/-- The world after the frame in which the start button is clicked. -/
def mW1 : World := mkMenu BUTTON_BG_COLOUR false (some .GameRunning)

/-- The world after `[iClick, iNull]`: first running frame, no shot. -/
def mW2 : World := mkRunning (stepX iNull 0) (toString 0) [] 0 0 0 0 false 0

/-- The world after `[iClick, iSpace]`: first running frame with a shot. -/
def mW2s : World :=
  mkRunning (stepX iSpace 0) (toString 1) [(stepX iSpace 0, playerY)] 1 1 0 1 true 1

/-- The world after `[iClick, iSpace, iNull]`. -/
def mW3 : World :=
  mkRunning (stepX iNull (stepX iSpace 0)) (toString 1)
    (stepBullets [(stepX iSpace 0, playerY)]) 1 1 1 0 false 1

/-- The spec's description of the movement integration on one entity: when both
a Transform and a Velocity are present, `position += velocity * fixedDelta` on
both coordinates; otherwise the entity is untouched. -/
def integratedSpec (er : EntityRec) (t : Transform) (v : Vec2) : EntityRec :=
  { er with transform := some { t with translation :=
      { t.translation with
          x := t.translation.x + v.x * TIME_STEP,
          y := t.translation.y + v.y * TIME_STEP } } }

/-- A two-entity world exercising the integration step. -/
def velEx : World :=
  { entities := [(0, bulletAt 1 2), (1, cameraEnt)], nextId := 2, score := 0,
    appState := .GameRunning, nextState := none,
    shootingEvents := ⟨0, 0, 0⟩, collisionEvents := ⟨0, 0, 0⟩,
    soundCursor := 0, soundsPlayed := 0, spaceWasHeld := false }

/-- The world after `[iClick, iNull, iNull]`. -/
def mW2b : World := mkRunning (stepX iNull (stepX iNull 0)) (toString 0) [] 0 0 0 0 false 0

/-- The x-position of the (unique) player, read through the player query. -/
def playerX (w : World) : ℚ :=
  match single playerQuery w with
  | some p =>
    match p.2.transform with
    | some t => t.translation.x
    | none => 0
  | none => 0

/-- The world after `[iClick, iNull, iSpace]`: a shot from `mW2`. -/
def mW2c : World :=
  mkRunning (stepX iSpace (stepX iNull 0)) (toString 1)
    [(stepX iSpace (stepX iNull 0), playerY)] 1 1 0 1 true 1

/-- The world after `[iClick, iNull, iSpace, iSpace]`: Space still held, no
second shot. -/
def mW2d : World :=
  mkRunning (stepX iSpace (stepX iSpace (stepX iNull 0))) (toString 1)
    (stepBullets [(stepX iSpace (stepX iNull 0), playerY)]) 1 1 1 0 true 1

@[simp]

theorem integrate_camera : integrateEntity cameraEnt = cameraEnt := rfl

@[simp]

theorem integrate_player (px : ℚ) : integrateEntity (playerEnt px) = playerEnt px := rfl

@[simp]

theorem integrate_scoreText (s : String) :
    integrateEntity (scoreTextEnt s) = scoreTextEnt s := rfl

@[simp]

theorem integrate_bullet (x y : ℚ) :
    integrateEntity (bulletAt x y) =
      bulletAt (x + bulletVelocity.x * TIME_STEP) (y + bulletVelocity.y * TIME_STEP) := rfl

@[simp]

theorem playerQuery_camera : playerQuery cameraEnt = false := rfl

@[simp]

theorem playerQuery_player (px : ℚ) : playerQuery (playerEnt px) = true := rfl

@[simp]

theorem playerQuery_scoreText (s : String) : playerQuery (scoreTextEnt s) = false := rfl

@[simp]

theorem playerQuery_bullet (x y : ℚ) : playerQuery (bulletAt x y) = false := rfl

@[simp]

theorem textQuery_camera : textQuery cameraEnt = false := rfl

@[simp]

theorem textQuery_player (px : ℚ) : textQuery (playerEnt px) = false := rfl

@[simp]

theorem textQuery_scoreText (s : String) : textQuery (scoreTextEnt s) = true := rfl

@[simp]

theorem textQuery_bullet (x y : ℚ) : textQuery (bulletAt x y) = false := rfl

@[simp]

theorem offscreen_camera : offscreenBullet cameraEnt = false := rfl

@[simp]

theorem offscreen_player (px : ℚ) : offscreenBullet (playerEnt px) = false := rfl

@[simp]

theorem offscreen_scoreText (s : String) : offscreenBullet (scoreTextEnt s) = false := rfl

theorem offscreen_bullet (x y : ℚ) :
    offscreenBullet (bulletAt x y) = decide (y < -(HEIGHT / 2)) := by
  simp [offscreenBullet, bulletAt]

theorem be_length (n : Nat) (bl : List (ℚ × ℚ)) :
    (bulletEntities n bl).length = bl.length := by
  induction bl generalizing n with
  | nil => rfl
  | cons q rest ih => simp [bulletEntities, ih]

theorem be_map_integrate (n : Nat) (bl : List (ℚ × ℚ)) :
    (bulletEntities n bl).map (fun e => (e.1, integrateEntity e.2)) =
      bulletEntities n (stepBullets bl) := by
  induction bl generalizing n with
  | nil => rfl
  | cons q rest ih =>
    simp only [bulletEntities, stepBullets, List.map_cons, integrate_bullet] at ih ⊢
    rw [ih]

theorem be_filter_of_false (p : Nat × EntityRec → Bool)
    (h : ∀ i x y, p (i, bulletAt x y) = false) (n : Nat) (bl : List (ℚ × ℚ)) :
    (bulletEntities n bl).filter p = [] := by
  induction bl generalizing n with
  | nil => rfl
  | cons q rest ih => simp [bulletEntities, List.filter, h, ih]

theorem be_map_setId (n id : Nat) (er : EntityRec) (hid : id < n) (bl : List (ℚ × ℚ)) :
    (bulletEntities n bl).map (fun e => if e.1 = id then (id, er) else e) =
      bulletEntities n bl := by
  induction bl generalizing n with
  | nil => rfl
  | cons q rest ih =>
    have hne : n ≠ id := by omega
    simp [bulletEntities, hne, ih (n + 1) (by omega)]

theorem be_append (n : Nat) (bl : List (ℚ × ℚ)) (x y : ℚ) :
    bulletEntities n bl ++ [(n + bl.length, bulletAt x y)] =
      bulletEntities n (bl ++ [(x, y)]) := by
  induction bl generalizing n with
  | nil => simp [bulletEntities]
  | cons q rest ih =>
    simp only [bulletEntities, List.cons_append, List.length_cons]
    have h : n + (rest.length + 1) = (n + 1) + rest.length := by omega
    rw [h, ih]
    rfl

theorem mem_be (n : Nat) (bl : List (ℚ × ℚ)) (e : Nat × EntityRec)
    (he : e ∈ bulletEntities n bl) : ∃ q ∈ bl, e.2 = bulletAt q.1 q.2 := by
  induction bl generalizing n with
  | nil => simp [bulletEntities] at he
  | cons q rest ih =>
    simp only [bulletEntities, List.mem_cons] at he
    rcases he with rfl | he
    · exact ⟨q, by simp⟩
    · obtain ⟨a, ha, h2⟩ := ih (n + 1) he
      exact ⟨a, by simp [ha], h2⟩

theorem single_player_entities (w : World) (px : ℚ) (s : String) (bl : List (ℚ × ℚ))
    (hw : w.entities = [(0, cameraEnt), (4, playerEnt px), (5, scoreTextEnt s)] ++
      bulletEntities 6 bl) :
    single playerQuery w = some (4, playerEnt px) := by
  have hbf : (bulletEntities 6 bl).filter (fun e => playerQuery e.2) = [] :=
    be_filter_of_false _ (fun i x y => by simp) 6 bl
  simp [single, queryList, hw, List.filter_append, hbf]

theorem single_text_entities (w : World) (px : ℚ) (s : String) (bl : List (ℚ × ℚ))
    (hw : w.entities = [(0, cameraEnt), (4, playerEnt px), (5, scoreTextEnt s)] ++
      bulletEntities 6 bl) :
    single textQuery w = some (5, scoreTextEnt s) := by
  have hbf : (bulletEntities 6 bl).filter (fun e => textQuery e.2) = [] :=
    be_filter_of_false _ (fun i x y => by simp) 6 bl
  simp [single, queryList, hw, List.filter_append, hbf]

theorem offscreen_filter_nil (px : ℚ) (s : String) (bl : List (ℚ × ℚ))
    (hbl : ∀ q ∈ bl, playerY ≤ q.2) :
    ([(0, cameraEnt), (4, playerEnt px), (5, scoreTextEnt s)] ++
        bulletEntities 6 bl).filter (fun (e : Nat × EntityRec) => offscreenBullet e.2) = [] := by
  rw [List.filter_eq_nil_iff]
  intro e he
  rcases List.mem_append.mp he with h3 | hbe
  · fin_cases h3 <;> simp
  · obtain ⟨q, hq, h2⟩ := mem_be 6 bl e hbe
    have hy := hbl q hq
    simp only [h2, offscreen_bullet, decide_eq_true_eq]
    rw [playerY] at hy
    rw [HEIGHT] at hy ⊢
    intro hlt
    norm_num at hy hlt
    linarith

theorem apply_velocity_mk (px : ℚ) (s : String) (bl : List (ℚ × ℚ))
    (sc ec cA cB pl : Nat) (held : Bool) :
    apply_velocity (mkRunning px s bl sc ec cA cB held pl) =
      mkRunning px s (stepBullets bl) sc ec cA cB held pl := by
  simp [apply_velocity, mkRunning, List.map_append, be_map_integrate, stepBullets]

theorem move_player_mk (inp : FrameInput) (px : ℚ) (s : String) (bl : List (ℚ × ℚ))
    (sc ec cA cB pl : Nat) (held : Bool) :
    move_player inp (mkRunning px s bl sc ec cA cB held pl) =
      some (mkRunning (stepX inp px) s bl sc ec cA cB held pl) := by
  rw [move_player, single_player_entities (mkRunning px s bl sc ec cA cB held pl) px s bl rfl]
  simp only [playerEnt]
  rw [setEntity]
  congr 1
  simp only [mkRunning, List.map_append, List.map_cons, List.map_nil]
  rw [be_map_setId 6 4 _ (by omega)]
  simp [stepX, dirOf, leftBound, rightBound, playerEnt]

theorem shoot_false_mk (px : ℚ) (s : String) (bl : List (ℚ × ℚ))
    (sc ec cA cB pl : Nat) (held : Bool) :
    player_shoot false (mkRunning px s bl sc ec cA cB held pl) =
      some (mkRunning px s bl sc ec cA cB held pl, []) := by
  rw [player_shoot, single_player_entities (mkRunning px s bl sc ec cA cB held pl) px s bl rfl]
  simp [playerEnt]

theorem shoot_true_mk (px : ℚ) (s : String) (bl : List (ℚ × ℚ))
    (sc ec cA cB pl : Nat) (held : Bool) :
    player_shoot true (mkRunning px s bl sc ec cA cB held pl) =
      some ({ mkRunning px s bl sc ec cA cB held pl with
                shootingEvents := ⟨cA, cB + 1, ec + 1⟩,
                score := sc + 1 },
            [bulletAt px playerY]) := by
  rw [player_shoot, single_player_entities (mkRunning px s bl sc ec cA cB held pl) px s bl rfl]
  simp [playerEnt, Events.send, mkRunning]

theorem sound_noshot (px : ℚ) (s : String) (bl : List (ℚ × ℚ))
    (sc ec cA cB pl : Nat) (held : Bool) :
    play_shooting_sound (mkRunning px s bl sc ec cA cB held pl) =
      mkRunning px s bl sc ec cA cB held pl := by
  have h0 : readerLen ⟨cA, cB, ec⟩ ec = 0 := by
    simp only [readerLen]
    omega
  simp [play_shooting_sound, mkRunning, h0]

theorem sound_shot (px : ℚ) (s : String) (bl : List (ℚ × ℚ))
    (sc ec cA cB pl : Nat) (held : Bool) :
    play_shooting_sound
        { mkRunning px s bl sc ec cA cB held pl with
            shootingEvents := ⟨cA, cB + 1, ec + 1⟩, score := sc + 1 } =
      { mkRunning px s bl sc (ec + 1) cA (cB + 1) held (pl + 1) with score := sc + 1 } := by
  have h1 : readerLen ⟨cA, cB + 1, ec + 1⟩ ec ≠ 0 := by
    simp only [readerLen]
    omega
  simp [play_shooting_sound, mkRunning, h1]

theorem update_scoreboard_entities (w : World) (px : ℚ) (s : String) (bl : List (ℚ × ℚ))
    (hw : w.entities = [(0, cameraEnt), (4, playerEnt px), (5, scoreTextEnt s)] ++
      bulletEntities 6 bl) :
    update_scoreboard w =
      some { w with entities :=
        [(0, cameraEnt), (4, playerEnt px), (5, scoreTextEnt (toString w.score))] ++
          bulletEntities 6 bl } := by
  rw [update_scoreboard, single_text_entities w px s bl hw]
  simp only [scoreTextEnt]
  norm_num
  rw [setEntity]
  congr 1
  rw [hw]
  simp only [List.map_append, List.map_cons, List.map_nil]
  rw [be_map_setId 6 5 _ (by omega)]
  simp

theorem commitDespawns_nil (w : World) : commitDespawns [] w = w := by
  simp [commitDespawns]

theorem commitSpawns_one (er : EntityRec) (w : World) :
    commitSpawns [er] w =
      { w with entities := w.entities ++ [(w.nextId, er)], nextId := w.nextId + 1 } := rfl

theorem stepBullets_ge (bl : List (ℚ × ℚ)) (hbl : ∀ q ∈ bl, playerY ≤ q.2) :
    ∀ q ∈ stepBullets bl, playerY ≤ q.2 := by
  intro q hq
  simp only [stepBullets, List.mem_map] at hq
  obtain ⟨a, ha, rfl⟩ := hq
  have := hbl a ha
  simp only [bulletVelocity, TIME_STEP, BULLET_SPEED]
  norm_num
  linarith

theorem commitSpawns_nil (w : World) : commitSpawns [] w = w := rfl

theorem runningUpdate_mk_false (inp : FrameInput) (px : ℚ) (s : String)
    (bl : List (ℚ × ℚ)) (sc ec cA cB pl : Nat) (held : Bool)
    (hbl : ∀ q ∈ bl, playerY ≤ q.2) :
    runningUpdate inp false (mkRunning px s bl sc ec cA cB held pl) =
      some (mkRunning (stepX inp px) (toString sc) (stepBullets bl) sc ec cA cB held pl) := by
  have hbl' := stepBullets_ge bl hbl
  have hcull : (mkRunning (stepX inp px) s (stepBullets bl) sc ec cA cB held pl).entities.filter
      (fun (e : Nat × EntityRec) => offscreenBullet e.2) = [] :=
    offscreen_filter_nil (stepX inp px) s (stepBullets bl) hbl'
  rw [runningUpdate, apply_velocity_mk, move_player_mk]
  dsimp only
  rw [shoot_false_mk]
  simp only [collision_check, remove_offscreen_entities, hcull, List.map_nil]
  rw [sound_noshot,
    update_scoreboard_entities _ (stepX inp px) s (stepBullets bl) rfl]
  dsimp only
  rw [commitSpawns_nil, commitDespawns_nil]
  simp [mkRunning]

theorem runningUpdate_mk_true (inp : FrameInput) (px : ℚ) (s : String)
    (bl : List (ℚ × ℚ)) (sc ec cA cB pl : Nat) (held : Bool)
    (hbl : ∀ q ∈ bl, playerY ≤ q.2) :
    runningUpdate inp true (mkRunning px s bl sc ec cA cB held pl) =
      some (mkRunning (stepX inp px) (toString (sc + 1))
        (stepBullets bl ++ [(stepX inp px, playerY)])
        (sc + 1) (ec + 1) cA (cB + 1) held (pl + 1)) := by
  have hbl' := stepBullets_ge bl hbl
  have hcull : (mkRunning (stepX inp px) s (stepBullets bl) sc ec cA cB held pl).entities.filter
      (fun (e : Nat × EntityRec) => offscreenBullet e.2) = [] :=
    offscreen_filter_nil (stepX inp px) s (stepBullets bl) hbl'
  rw [runningUpdate, apply_velocity_mk, move_player_mk]
  dsimp only
  rw [shoot_true_mk]
  simp only [collision_check, remove_offscreen_entities, hcull, List.map_nil]
  rw [sound_shot,
    update_scoreboard_entities _ (stepX inp px) s (stepBullets bl) rfl]
  dsimp only
  rw [commitDespawns_nil, commitSpawns_one]
  simp only [mkRunning]
  rw [List.append_assoc, be_append]
  simp [List.length_append, Nat.add_assoc]

theorem ast_none (w : World) (h : w.nextState = none) : apply_state_transition w = w := by
  rw [apply_state_transition, h]

theorem setButtonColors_mk (c' c : Color) (held : Bool) (ns : Option AppState) :
    setButtonColors c' (mkMenu c held ns) = mkMenu c' held ns := by
  simp [setButtonColors, mkMenu, cameraEnt, menuRootEnt, buttonEnt, menuTextEnt]

theorem menu_mk (inp : FrameInput) (c : Color) (held : Bool) :
    menu inp (mkMenu c held none) = mkMenu (menuColor inp c) held (menuNext inp) := by
  rw [menu]
  cases hi : inp.interaction with
  | none => simp [menuColor, menuNext, hi]
  | some i =>
    cases i
    · simp [menuColor, menuNext, hi, mkMenu]
    · simp [menuColor, menuNext, hi, setButtonColors_mk]
    · simp [menuColor, menuNext, hi, setButtonColors_mk]

theorem menu_cleanup_mk (c : Color) (held : Bool) (ns : Option AppState) :
    menu_cleanup (mkMenu c held ns) =
      { mkMenu c held ns with entities := [(0, cameraEnt)] } := by
  simp [menu_cleanup, mkMenu, hasMenuAncestor, World.lookup, lfind, cameraEnt, menuRootEnt,
    buttonEnt, menuTextEnt, List.filter]

theorem frame_menu_stay (inp : FrameInput) (c : Color) (held : Bool) :
    frame inp (mkMenu c held none) =
      some (mkMenu (menuColor inp c) inp.space (menuNext inp)) := by
  have hpre : { eventsFirst (mkMenu c held none) with spaceWasHeld := inp.space } =
      mkMenu c inp.space none := by
    simp [eventsFirst, Events.update, mkMenu]
  rw [frame, hpre, ast_none _ rfl]
  exact congrArg some (menu_mk inp c inp.space)

theorem ast_menu_go (c : Color) (held : Bool) :
    apply_state_transition (mkMenu c held (some .GameRunning)) =
      mkRunning 0 ("" : String) [] 0 0 0 0 held 0 := by
  show game_setup
      { menu_cleanup { mkMenu c held (some .GameRunning) with nextState := none } with
        appState := .GameRunning } = _
  have h1 : { mkMenu c held (some .GameRunning) with nextState := none } =
      mkMenu c held none := by
    simp [mkMenu]
  rw [h1, menu_cleanup_mk]
  simp [game_setup, mkMenu, mkRunning, bulletEntities]

theorem frame_running_noshoot (inp : FrameInput) (px : ℚ) (s : String)
    (bl : List (ℚ × ℚ)) (sc ec cA cB pl : Nat) (held : Bool)
    (hbl : ∀ q ∈ bl, playerY ≤ q.2) (hjp : (inp.space && !held) = false) :
    frame inp (mkRunning px s bl sc ec cA cB held pl) =
      some (mkRunning (stepX inp px) (toString sc) (stepBullets bl) sc ec cB 0 inp.space pl) := by
  have hpre : { eventsFirst (mkRunning px s bl sc ec cA cB held pl) with
      spaceWasHeld := inp.space } = mkRunning px s bl sc ec cB 0 inp.space pl := by
    simp [eventsFirst, Events.update, mkRunning]
  rw [frame, hpre, ast_none _ rfl]
  show runningUpdate inp (inp.space && !held) (mkRunning px s bl sc ec cB 0 inp.space pl) = _
  rw [hjp, runningUpdate_mk_false inp px s bl sc ec cB 0 pl inp.space hbl]

theorem frame_running_shoot (inp : FrameInput) (px : ℚ) (s : String)
    (bl : List (ℚ × ℚ)) (sc ec cA cB pl : Nat) (held : Bool)
    (hbl : ∀ q ∈ bl, playerY ≤ q.2) (hjp : (inp.space && !held) = true) :
    frame inp (mkRunning px s bl sc ec cA cB held pl) =
      some (mkRunning (stepX inp px) (toString (sc + 1))
        (stepBullets bl ++ [(stepX inp px, playerY)]) (sc + 1) (ec + 1) cB 1 inp.space
        (pl + 1)) := by
  have hpre : { eventsFirst (mkRunning px s bl sc ec cA cB held pl) with
      spaceWasHeld := inp.space } = mkRunning px s bl sc ec cB 0 inp.space pl := by
    simp [eventsFirst, Events.update, mkRunning]
  rw [frame, hpre, ast_none _ rfl]
  show runningUpdate inp (inp.space && !held) (mkRunning px s bl sc ec cB 0 inp.space pl) = _
  rw [hjp, runningUpdate_mk_true inp px s bl sc ec cB 0 pl inp.space hbl]

theorem frame_menu_go_noshoot (inp : FrameInput) (c : Color) (held : Bool)
    (hjp : (inp.space && !held) = false) :
    frame inp (mkMenu c held (some .GameRunning)) =
      some (mkRunning (stepX inp 0) (toString 0) [] 0 0 0 0 inp.space 0) := by
  have hpre : { eventsFirst (mkMenu c held (some .GameRunning)) with
      spaceWasHeld := inp.space } = mkMenu c inp.space (some .GameRunning) := by
    simp [eventsFirst, Events.update, mkMenu]
  rw [frame, hpre, ast_menu_go]
  show runningUpdate inp (inp.space && !held) (mkRunning 0 ("" : String) [] 0 0 0 0 inp.space 0) = _
  rw [hjp, runningUpdate_mk_false inp 0 ("" : String) [] 0 0 0 0 0 inp.space (by simp)]
  simp [stepBullets]

theorem frame_menu_go_shoot (inp : FrameInput) (c : Color) (held : Bool)
    (hjp : (inp.space && !held) = true) :
    frame inp (mkMenu c held (some .GameRunning)) =
      some (mkRunning (stepX inp 0) (toString 1) [(stepX inp 0, playerY)] 1 1 0 1 inp.space 1) := by
  have hpre : { eventsFirst (mkMenu c held (some .GameRunning)) with
      spaceWasHeld := inp.space } = mkMenu c inp.space (some .GameRunning) := by
    simp [eventsFirst, Events.update, mkMenu]
  rw [frame, hpre, ast_menu_go]
  show runningUpdate inp (inp.space && !held) (mkRunning 0 ("" : String) [] 0 0 0 0 inp.space 0) = _
  rw [hjp, runningUpdate_mk_true inp 0 ("" : String) [] 0 0 0 0 0 inp.space (by simp)]
  simp [stepBullets]

theorem clampR_bounds (x lo hi : ℚ) (h : lo ≤ hi) :
    lo ≤ clampR x lo hi ∧ clampR x lo hi ≤ hi := by
  unfold clampR
  split_ifs with h1 h2
  · exact ⟨le_refl lo, h⟩
  · exact ⟨h, le_refl hi⟩
  · exact ⟨by linarith, by linarith⟩

theorem lb_le_rb : leftBound ≤ rightBound := by
  norm_num [leftBound, rightBound, WIDTH]

theorem stepX_bounds (inp : FrameInput) (x : ℚ) :
    leftBound ≤ stepX inp x ∧ stepX inp x ≤ rightBound :=
  clampR_bounds _ _ _ lb_le_rb

theorem inv_step (w : World) (hw : Inv w) (inp : FrameInput) :
    ∃ w', frame inp w = some w' ∧ Inv w' := by
  rcases hw with ⟨c, held, ns, rfl, hns⟩ | ⟨px, s, bl, sc, ec, cA, cB, held, pl, rfl, hbl, hx1, hx2⟩
  · rcases hns with rfl | rfl
    · refine ⟨_, frame_menu_stay inp c held, Or.inl ⟨_, _, _, rfl, ?_⟩⟩
      rw [menuNext]
      split_ifs
      · exact Or.inr rfl
      · exact Or.inl rfl
    · cases hjp : (inp.space && !held) with
      | true =>
        refine ⟨_, frame_menu_go_shoot inp c held hjp, Or.inr ⟨_, _, _, _, _, _, _, _, _, rfl,
          ?_, (stepX_bounds inp 0).1, (stepX_bounds inp 0).2⟩⟩
        intro q hq
        simp only [List.mem_singleton] at hq
        rw [hq]
      | false =>
        exact ⟨_, frame_menu_go_noshoot inp c held hjp, Or.inr ⟨_, _, _, _, _, _, _, _, _, rfl,
          by simp, (stepX_bounds inp 0).1, (stepX_bounds inp 0).2⟩⟩
  · cases hjp : (inp.space && !held) with
    | true =>
      refine ⟨_, frame_running_shoot inp px s bl sc ec cA cB pl held hbl hjp,
        Or.inr ⟨_, _, _, _, _, _, _, _, _, rfl, ?_, (stepX_bounds inp px).1,
          (stepX_bounds inp px).2⟩⟩
      intro q hq
      rcases List.mem_append.mp hq with h | h
      · exact stepBullets_ge bl hbl q h
      · simp only [List.mem_singleton] at h
        rw [h]
    | false =>
      exact ⟨_, frame_running_noshoot inp px s bl sc ec cA cB pl held hbl hjp,
        Or.inr ⟨_, _, _, _, _, _, _, _, _, rfl, stepBullets_ge bl hbl,
          (stepX_bounds inp px).1, (stepX_bounds inp px).2⟩⟩

theorem inv_frame (w w' : World) (hw : Inv w) (inp : FrameInput)
    (hf : frame inp w = some w') : Inv w' := by
  obtain ⟨w'', hf', hi⟩ := inv_step w hw inp
  rw [hf] at hf'
  injection hf' with h
  rw [h]
  exact hi

theorem runFrames_inv (l : List FrameInput) (w w' : World) (hw : Inv w)
    (hr : runFrames l w = some w') : Inv w' := by
  induction l generalizing w with
  | nil =>
    injection hr with h
    rw [← h]
    exact hw
  | cons i rest ih =>
    rw [runFrames] at hr
    cases hf : frame i w with
    | none => rw [hf] at hr; exact absurd hr (by simp)
    | some w1 =>
      rw [hf] at hr
      exact ih w1 (inv_frame w w1 hw i hf) hr

theorem init_inv : Inv init := by
  left
  exact ⟨BUTTON_BG_COLOUR, false, none, rfl, Or.inl rfl⟩

theorem reachable_inv (w : World) (hw : Reachable w) : Inv w := by
  obtain ⟨l, hl⟩ := hw
  exact runFrames_inv l init w init_inv hl

theorem lfind_be (n : Nat) (bl : List (ℚ × ℚ)) (i : Nat) :
    lfind (bulletEntities n bl) (n + i) = (bl.get? i).map (fun q => bulletAt q.1 q.2) := by
  induction bl generalizing n i with
  | nil => cases i <;> rfl
  | cons q rest ih =>
    cases i with
    | zero => simp [bulletEntities, lfind]
    | succ i =>
      have hne : ¬(n = n + (i + 1)) := by omega
      have harr : n + (i + 1) = (n + 1) + i := by omega
      simp only [bulletEntities, lfind, hne, if_false]
      rw [harr, ih]
      rfl

theorem lfind_be_none (n id : Nat) (bl : List (ℚ × ℚ)) (h : id < n) :
    lfind (bulletEntities n bl) id = none := by
  induction bl generalizing n with
  | nil => rfl
  | cons q rest ih =>
    have hne : ¬(n = id) := by omega
    simp only [bulletEntities, lfind, hne, if_false]
    exact ih (n + 1) (by omega)

theorem lookup_menu (c : Color) (held : Bool) (ns : Option AppState) (id : Nat) :
    (mkMenu c held ns).lookup id =
      if 0 = id then some cameraEnt
      else if 1 = id then some menuRootEnt
      else if 2 = id then some (buttonEnt 1 c)
      else if 3 = id then some (menuTextEnt 2) else none := rfl

theorem lookup_mk_bullet (px : ℚ) (s : String) (bl : List (ℚ × ℚ))
    (sc ec cA cB pl : Nat) (held : Bool) (id : Nat) (h : 6 ≤ id) :
    (mkRunning px s bl sc ec cA cB held pl).lookup id =
      (bl.get? (id - 6)).map (fun q => bulletAt q.1 q.2) := by
  obtain ⟨j, rfl⟩ : ∃ j, id = 6 + j := ⟨id - 6, by omega⟩
  have h0 : ¬((0 : Nat) = 6 + j) := by omega
  have h4 : ¬((4 : Nat) = 6 + j) := by omega
  have h5 : ¬((5 : Nat) = 6 + j) := by omega
  show lfind ([(0, cameraEnt), (4, playerEnt px), (5, scoreTextEnt s)] ++ bulletEntities 6 bl)
      (6 + j) = _
  simp only [List.cons_append, List.nil_append, List.append_eq, lfind, h0, h4, h5, if_false]
  rw [lfind_be]
  simp

theorem lookup_mk_small (px : ℚ) (s : String) (bl : List (ℚ × ℚ))
    (sc ec cA cB pl : Nat) (held : Bool) (id : Nat) (h : id = 1 ∨ id = 2 ∨ id = 3) :
    (mkRunning px s bl sc ec cA cB held pl).lookup id = none := by
  have h0 : ¬((0 : Nat) = id) := by omega
  have h4 : ¬((4 : Nat) = id) := by omega
  have h5 : ¬((5 : Nat) = id) := by omega
  show lfind ([(0, cameraEnt), (4, playerEnt px), (5, scoreTextEnt s)] ++ bulletEntities 6 bl)
      id = _
  simp only [List.cons_append, List.nil_append, lfind, h0, h4, h5, if_false]
  exact lfind_be_none 6 id bl (by omega)

theorem lookup_mk_cases (px : ℚ) (s : String) (bl : List (ℚ × ℚ))
    (sc ec cA cB pl : Nat) (held : Bool) (id : Nat) (er : EntityRec)
    (h : (mkRunning px s bl sc ec cA cB held pl).lookup id = some er) :
    (id = 0 ∧ er = cameraEnt) ∨ (id = 4 ∧ er = playerEnt px) ∨
      (id = 5 ∧ er = scoreTextEnt s) ∨
      ∃ i q, bl.get? i = some q ∧ id = 6 + i ∧ er = bulletAt q.1 q.2 := by
  by_cases h0 : id = 0
  · left
    refine ⟨h0, ?_⟩
    rw [h0] at h
    injection h with h
    exact h.symm
  by_cases h4 : id = 4
  · right; left
    refine ⟨h4, ?_⟩
    rw [h4] at h
    injection h with h
    exact h.symm
  by_cases h5 : id = 5
  · right; right; left
    refine ⟨h5, ?_⟩
    rw [h5] at h
    injection h with h
    exact h.symm
  by_cases h6 : 6 ≤ id
  · right; right; right
    rw [lookup_mk_bullet px s bl sc ec cA cB pl held id h6] at h
    cases hq : bl.get? (id - 6) with
    | none => rw [hq] at h; exact absurd h (by simp)
    | some q =>
      rw [hq] at h
      injection h with h
      exact ⟨id - 6, q, hq, by omega, h.symm⟩
  · exfalso
    rw [lookup_mk_small px s bl sc ec cA cB pl held id (by omega)] at h
    exact absurd h (by simp)

theorem be_filter_bullet (n : Nat) (bl : List (ℚ × ℚ)) :
    (bulletEntities n bl).filter (fun (e : Nat × EntityRec) => e.2.isBullet) =
      bulletEntities n bl := by
  induction bl generalizing n with
  | nil => rfl
  | cons q rest ih => simp [bulletEntities, List.filter, bulletAt, ih]

theorem bulletCount_mk (px : ℚ) (s : String) (bl : List (ℚ × ℚ))
    (sc ec cA cB pl : Nat) (held : Bool) :
    bulletCount (mkRunning px s bl sc ec cA cB held pl) = bl.length := by
  simp only [bulletCount, mkRunning, List.filter_append]
  rw [be_filter_bullet]
  simp [List.filter, cameraEnt, playerEnt, scoreTextEnt, be_length]

theorem run_click : frame iClick init = some mW1 := by
  rw [show init = mkMenu BUTTON_BG_COLOUR false none from rfl, frame_menu_stay]
  rfl

theorem run_null_mW1 : frame iNull mW1 = some mW2 :=
  frame_menu_go_noshoot iNull BUTTON_BG_COLOUR false rfl

theorem run_space_mW1 : frame iSpace mW1 = some mW2s :=
  frame_menu_go_shoot iSpace BUTTON_BG_COLOUR false rfl

theorem hbl_mW2s : ∀ q ∈ [((stepX iSpace 0 : ℚ), playerY)], playerY ≤ q.2 := by
  intro q hq
  simp only [List.mem_singleton] at hq
  rw [hq]

theorem run_null_mW2s : frame iNull mW2s = some mW3 :=
  frame_running_noshoot iNull (stepX iSpace 0) (toString 1) [(stepX iSpace 0, playerY)]
    1 1 0 1 1 true hbl_mW2s rfl

theorem reach_mW1 : runFrames [iClick] init = some mW1 := by
  simp only [runFrames, run_click]

theorem reach_mW2 : runFrames [iClick, iNull] init = some mW2 := by
  simp only [runFrames, run_click, run_null_mW1]

theorem reach_mW2s : runFrames [iClick, iSpace] init = some mW2s := by
  simp only [runFrames, run_click, run_space_mW1]

/-- C1 (amended): on every reachable frame, the Scoreboard increases by exactly
the number of ShootingEvents emitted that frame (the `+= 1` sits inside
`player_shoot`'s rising-edge branch), no CollisionEvent is ever emitted, and
`collision_check` is an empty stub that changes nothing — so the score follows
shoot intents, not collision processing. -/
theorem C1_score_tracks_shoot_not_collision (w : World) (hw : Reachable w)
    (inp : FrameInput) (w' : World) (hf : frame inp w = some w') :
    w'.score = w.score + (w'.shootingEvents.eventCount - w.shootingEvents.eventCount) ∧
    w.collisionEvents.eventCount = 0 ∧
    collision_check w = w := by
  have hInv := reachable_inv w hw
  rcases hInv with ⟨c, held, ns, rfl, hns⟩ |
    ⟨px, s, bl, sc, ec, cA, cB, held, pl, rfl, hbl, hx1, hx2⟩
  · rcases hns with rfl | rfl
    · rw [frame_menu_stay] at hf
      injection hf with hf
      rw [← hf]
      exact ⟨rfl, rfl, rfl⟩
    · cases hjp : (inp.space && !held) with
      | true =>
        rw [frame_menu_go_shoot inp c held hjp] at hf
        injection hf with hf
        rw [← hf]
        exact ⟨rfl, rfl, rfl⟩
      | false =>
        rw [frame_menu_go_noshoot inp c held hjp] at hf
        injection hf with hf
        rw [← hf]
        exact ⟨rfl, rfl, rfl⟩
  · cases hjp : (inp.space && !held) with
    | true =>
      rw [frame_running_shoot inp px s bl sc ec cA cB pl held hbl hjp] at hf
      injection hf with hf
      rw [← hf]
      exact ⟨by show sc + 1 = sc + (ec + 1 - ec); omega, rfl, rfl⟩
    | false =>
      rw [frame_running_noshoot inp px s bl sc ec cA cB pl held hbl hjp] at hf
      injection hf with hf
      rw [← hf]
      exact ⟨by show sc = sc + (ec - ec); omega, rfl, rfl⟩

/-- Witness for C1 at the first frame from the initial world. -/
theorem C1_witness :
    mW1.score = init.score + (mW1.shootingEvents.eventCount -
      init.shootingEvents.eventCount) ∧
    init.collisionEvents.eventCount = 0 ∧
    collision_check init = init :=
  C1_score_tracks_shoot_not_collision init ⟨[], rfl⟩ iClick mW1 run_click

/-- Counterexample to C1 as stated: after clicking start and pressing Space
once, the Scoreboard is 1 although no CollisionEvent was ever emitted (the
collision system is a stub), so a shoot intent alone changed the score. -/
theorem C1_counterexample :
    runFrames [iClick, iSpace] init = some mW2s ∧
    mW2s.score = 1 ∧
    mW2s.collisionEvents.eventCount = 0 ∧
    mW2s.shootingEvents.eventCount = 1 :=
  ⟨reach_mW2s, rfl, rfl, rfl⟩

/-- C2: on every reachable frame, if the state machine moves from Menu to
GameRunning then the Scoreboard is 0 at that entry, and the Scoreboard never
decreases across any frame (so it is non-decreasing within a Running
session). -/
theorem C2_score_reset_and_monotone (w : World) (hw : Reachable w)
    (inp : FrameInput) (w' : World) (hf : frame inp w = some w') :
    (w.appState = .Menu → w'.appState = .GameRunning → w.score = 0) ∧
    w.score ≤ w'.score := by
  have hInv := reachable_inv w hw
  rcases hInv with ⟨c, held, ns, rfl, hns⟩ |
    ⟨px, s, bl, sc, ec, cA, cB, held, pl, rfl, hbl, hx1, hx2⟩
  · refine ⟨fun _ _ => rfl, ?_⟩
    rcases hns with rfl | rfl
    · rw [frame_menu_stay] at hf
      injection hf with hf
      rw [← hf]
      exact Nat.le_refl _
    · cases hjp : (inp.space && !held) with
      | true =>
        rw [frame_menu_go_shoot inp c held hjp] at hf
        injection hf with hf
        rw [← hf]
        exact Nat.zero_le 1
      | false =>
        rw [frame_menu_go_noshoot inp c held hjp] at hf
        injection hf with hf
        rw [← hf]
        exact Nat.le_refl _
  · refine ⟨?_, ?_⟩
    · intro h _
      simp [mkRunning] at h
    · cases hjp : (inp.space && !held) with
      | true =>
        rw [frame_running_shoot inp px s bl sc ec cA cB pl held hbl hjp] at hf
        injection hf with hf
        rw [← hf]
        exact Nat.le_succ sc
      | false =>
        rw [frame_running_noshoot inp px s bl sc ec cA cB pl held hbl hjp] at hf
        injection hf with hf
        rw [← hf]
        exact Nat.le_refl _

/-- Witness for C2 at the Menu→Running transition frame. -/
theorem C2_witness :
    (mW1.appState = .Menu → mW2.appState = .GameRunning → mW1.score = 0) ∧
    mW1.score ≤ mW2.score :=
  C2_score_reset_and_monotone mW1 ⟨[iClick], reach_mW1⟩ iNull mW2 run_null_mW1

/-- C7 (amended): on every reachable world the registered ShootingEvent
consumer has already read every event (its reader length is 0 at every frame
boundary, so no event emitted in one tick is re-observed by it later), no
CollisionEvent ever sits in the bus, and the sound side effect fires exactly
once per emitted ShootingEvent, in the frame of emission.  However, the
underlying double-buffered `Events` resource is *not* empty at the start of
the next tick (see the counterexample). -/
theorem C7_events_consumed_same_tick (w : World) (hw : Reachable w)
    (inp : FrameInput) (w' : World) (hf : frame inp w = some w') :
    readerLen w.shootingEvents w.soundCursor = 0 ∧
    Events.total w.collisionEvents = 0 ∧
    w'.soundsPlayed = w.soundsPlayed +
      (w'.shootingEvents.eventCount - w.shootingEvents.eventCount) := by
  have hInv := reachable_inv w hw
  rcases hInv with ⟨c, held, ns, rfl, hns⟩ |
    ⟨px, s, bl, sc, ec, cA, cB, held, pl, rfl, hbl, hx1, hx2⟩
  · refine ⟨rfl, rfl, ?_⟩
    rcases hns with rfl | rfl
    · rw [frame_menu_stay] at hf
      injection hf with hf
      rw [← hf]
      rfl
    · cases hjp : (inp.space && !held) with
      | true =>
        rw [frame_menu_go_shoot inp c held hjp] at hf
        injection hf with hf
        rw [← hf]
        rfl
      | false =>
        rw [frame_menu_go_noshoot inp c held hjp] at hf
        injection hf with hf
        rw [← hf]
        rfl
  · refine ⟨?_, rfl, ?_⟩
    · show readerLen ⟨cA, cB, ec⟩ ec = 0
      simp only [readerLen]
      omega
    · cases hjp : (inp.space && !held) with
      | true =>
        rw [frame_running_shoot inp px s bl sc ec cA cB pl held hbl hjp] at hf
        injection hf with hf
        rw [← hf]
        show pl + 1 = pl + (ec + 1 - ec)
        omega
      | false =>
        rw [frame_running_noshoot inp px s bl sc ec cA cB pl held hbl hjp] at hf
        injection hf with hf
        rw [← hf]
        show pl = pl + (ec - ec)
        omega

/-- Witness for C7 on a reachable running world with one past shot. -/
theorem C7_witness :
    readerLen mW2s.shootingEvents mW2s.soundCursor = 0 ∧
    Events.total mW2s.collisionEvents = 0 ∧
    mW3.soundsPlayed = mW2s.soundsPlayed +
      (mW3.shootingEvents.eventCount - mW2s.shootingEvents.eventCount) :=
  C7_events_consumed_same_tick mW2s ⟨[iClick, iSpace], reach_mW2s⟩ iNull mW3 run_null_mW2s

/-- Counterexample to C7 as stated: `mW2s` is the state at the end of the tick
with the shot, i.e. at the start of the following tick, and the event bus
still holds the ShootingEvent (Bevy's double buffer drops it only at the
second following event update), so the EventBus is not empty at the start of
every tick. -/
theorem C7_counterexample :
    runFrames [iClick, iSpace] init = some mW2s ∧
    Events.total mW2s.shootingEvents = 1 :=
  ⟨reach_mW2s, rfl⟩

theorem integrate_vel_none (er : EntityRec) (h : er.velocity = none) :
    integrateEntity er = er := by
  cases htr : er.transform <;> simp [integrateEntity, htr, h]

theorem map_id_of_fix (l : List (Nat × EntityRec)) (f : Nat × EntityRec → Nat × EntityRec)
    (h : ∀ e ∈ l, f e = e) : l.map f = l := by
  induction l with
  | nil => rfl
  | cons e rest ih =>
    rw [List.map_cons, h e (by simp), ih (fun x hx => h x (by simp [hx]))]

/-- C8 (amended): systems that iterate a query are safe no-ops when nothing
matches (`apply_velocity` with no velocity-carrying entity,
`remove_offscreen_entities` with no bullet), but the systems built on
`Query::single`/`single_mut` — `move_player`, `player_shoot`,
`update_scoreboard` — abort (panic) when the queried singleton is absent,
rather than leaving the state unchanged. -/
theorem C8_absent_queries (w : World) (inp : FrameInput) :
    (queryList playerQuery w = [] →
      move_player inp w = none ∧ player_shoot true w = none) ∧
    (queryList textQuery w = [] → update_scoreboard w = none) ∧
    ((∀ e ∈ w.entities, e.2.velocity = none) → apply_velocity w = w) ∧
    ((∀ e ∈ w.entities, e.2.isBullet = false) → remove_offscreen_entities w = (w, [])) := by
  refine ⟨fun h => ⟨?_, ?_⟩, fun h => ?_, fun h => ?_, fun h => ?_⟩
  · rw [move_player, single, h]
  · rw [player_shoot, single, h]
  · rw [update_scoreboard, single, h]
  · rw [apply_velocity,
      map_id_of_fix _ _ (fun e he => by rw [integrate_vel_none e.2 (h e he)])]
  · rw [remove_offscreen_entities]
    have : w.entities.filter (fun e => offscreenBullet e.2) = [] := by
      rw [List.filter_eq_nil_iff]
      intro e he
      simp [offscreenBullet, h e he]
    rw [this]
    rfl

/-- Witness for C8 on the empty startup world. -/
theorem C8_witness :
    move_player iNull startupWorld = none ∧
    player_shoot true startupWorld = none ∧
    update_scoreboard startupWorld = none ∧
    apply_velocity startupWorld = startupWorld ∧
    remove_offscreen_entities startupWorld = (startupWorld, []) := by
  obtain ⟨h1, h2, h3, h4⟩ := C8_absent_queries startupWorld iNull
  exact ⟨(h1 rfl).1, (h1 rfl).2, h2 rfl, h3 (by intro e he; cases he),
    h4 (by intro e he; cases he)⟩

/-- Counterexample to C8 as stated: the initial (menu) world has no Player
entity, and `move_player` run on it panics (`Query::single_mut` with zero
matches), modelled as `none` — not a safe no-op returning the world
unchanged. -/
theorem C8_counterexample :
    queryList playerQuery init = [] ∧
    move_player iNull init = none ∧
    move_player iNull init ≠ some init :=
  ⟨rfl, rfl, by intro h; cases h⟩

/-- C9: `apply_velocity` maps every entity at position `i` to the same id with
exactly the spec's integration step — `pos += vel * TIME_STEP` on x and y for
entities carrying both components, identity otherwise — and leaves the entity
list length (hence every other entity) unchanged. -/
theorem C9_velocity_integration (w : World) (i id : Nat) (er : EntityRec)
    (h : w.entities.get? i = some (id, er)) :
    (apply_velocity w).entities.length = w.entities.length ∧
    (apply_velocity w).entities.get? i =
      some (id, match er.transform, er.velocity with
        | some t, some v => integratedSpec er t v
        | _, _ => er) := by
  constructor
  · simp [apply_velocity]
  · show (w.entities.map (fun e => (e.1, integrateEntity e.2))).get? i = _
    rw [List.get?_map, h]
    cases htr : er.transform <;> cases hv : er.velocity <;>
      simp [integrateEntity, integratedSpec, htr, hv]

/-- Witness for C9 on a concrete moving entity. -/
theorem C9_witness :
    (apply_velocity velEx).entities.length = velEx.entities.length ∧
    (apply_velocity velEx).entities.get? 0 =
      some (0, match (bulletAt 1 2).transform, (bulletAt 1 2).velocity with
        | some t, some v => integratedSpec (bulletAt 1 2) t v
        | _, _ => bulletAt 1 2) :=
  C9_velocity_integration velEx 0 0 (bulletAt 1 2) rfl

theorem menu_no_player (c : Color) (held : Bool) (ns : Option AppState) :
    ∀ e ∈ (mkMenu c held ns).entities, e.2.isPlayer = false := by
  intro e he
  fin_cases he <;> rfl

theorem mk_players (px : ℚ) (s : String) (bl : List (ℚ × ℚ))
    (sc ec cA cB pl : Nat) (held : Bool) :
    ∀ e ∈ (mkRunning px s bl sc ec cA cB held pl).entities,
      e.2.isPlayer = true → e = (4, playerEnt px) := by
  intro e he hp
  rcases List.mem_append.mp he with h3 | hbe
  · fin_cases h3
    · exact absurd hp (by simp [cameraEnt])
    · rfl
    · exact absurd hp (by simp [scoreTextEnt])
  · obtain ⟨q, hq, h2⟩ := mem_be 6 bl e hbe
    rw [h2] at hp
    exact absurd hp (by simp [bulletAt])

theorem mk_player_mem (px : ℚ) (s : String) (bl : List (ℚ × ℚ))
    (sc ec cA cB pl : Nat) (held : Bool) :
    (4, playerEnt px) ∈ (mkRunning px s bl sc ec cA cB held pl).entities := by
  simp [mkRunning]

/-- C4: on every reachable frame, the Running→GameOver transition happens
exactly when the Player entity is removed — and in this code base neither side
ever happens: `collision_check` is an empty stub, nothing ever queues
`GameOver`, the player entity persists, and a Running world always steps to a
Running world. -/
theorem C4_gameover_iff_player_removed (w : World) (hw : Reachable w)
    (inp : FrameInput) (w' : World) (hf : frame inp w = some w') :
    ((w.appState = .GameRunning ∧ w'.appState = .GameOver) ↔
      (w.appState = .GameRunning ∧ (∃ e ∈ w.entities, e.2.isPlayer = true) ∧
        ¬ ∃ e ∈ w'.entities, e.2.isPlayer = true)) ∧
    (w.appState = .GameRunning → w'.appState = .GameRunning) := by
  have hInv := reachable_inv w hw
  rcases hInv with ⟨c, held, ns, rfl, hns⟩ |
    ⟨px, s, bl, sc, ec, cA, cB, held, pl, rfl, hbl, hx1, hx2⟩
  · constructor
    · constructor
      · intro h
        exact absurd h.1 (by simp [mkMenu])
      · intro h
        exact absurd h.1 (by simp [mkMenu])
    · intro h
      exact absurd h (by simp [mkMenu])
  · have hw' : ∃ px' s' bl' sc' ec' cA' cB' held' pl',
        w' = mkRunning px' s' bl' sc' ec' cA' cB' held' pl' := by
      cases hjp : (inp.space && !held) with
      | true =>
        rw [frame_running_shoot inp px s bl sc ec cA cB pl held hbl hjp] at hf
        injection hf with hf
        exact ⟨_, _, _, _, _, _, _, _, _, hf.symm⟩
      | false =>
        rw [frame_running_noshoot inp px s bl sc ec cA cB pl held hbl hjp] at hf
        injection hf with hf
        exact ⟨_, _, _, _, _, _, _, _, _, hf.symm⟩
    obtain ⟨px', s', bl', sc', ec', cA', cB', held', pl', rfl⟩ := hw'
    constructor
    · constructor
      · intro h
        exact absurd h.2 (by simp [mkRunning])
      · intro h
        exact absurd h.2.2 (by
          intro hno
          exact hno ⟨(4, playerEnt px'), mk_player_mem px' s' bl' sc' ec' cA' cB' pl' held',
            rfl⟩)
    · intro _
      rfl

/-- Witness for C4 on a reachable running frame. -/
theorem C4_witness :
    ((mW2s.appState = .GameRunning ∧ mW3.appState = .GameOver) ↔
      (mW2s.appState = .GameRunning ∧ (∃ e ∈ mW2s.entities, e.2.isPlayer = true) ∧
        ¬ ∃ e ∈ mW3.entities, e.2.isPlayer = true)) ∧
    (mW2s.appState = .GameRunning → mW3.appState = .GameRunning) :=
  C4_gameover_iff_player_removed mW2s ⟨[iClick, iSpace], reach_mW2s⟩ iNull mW3 run_null_mW2s

/-- C5: on every reachable frame, every player entity's x-position after the
frame lies within `[-WIDTH/2 + 32, WIDTH/2 - 32]`, the new x is exactly the
clamp of `old x + direction * PLAYER_SPEED * TIME_STEP`, and the direction is
one of `-1`, `0`, `1`. -/
theorem C5_player_x_clamped (w : World) (hw : Reachable w)
    (inp : FrameInput) (w' : World) (hf : frame inp w = some w') :
    (∀ e ∈ w'.entities, e.2.isPlayer = true →
      ∃ t, e.2.transform = some t ∧
        leftBound ≤ t.translation.x ∧ t.translation.x ≤ rightBound) ∧
    (∀ e0 ∈ w.entities, e0.2.isPlayer = true →
      ∀ e1 ∈ w'.entities, e1.2.isPlayer = true →
      ∀ t0 t1, e0.2.transform = some t0 → e1.2.transform = some t1 →
        t1.translation.x = clampR (t0.translation.x + dirOf inp * PLAYER_SPEED * TIME_STEP)
          leftBound rightBound) ∧
    (dirOf inp = -1 ∨ dirOf inp = 0 ∨ dirOf inp = 1) := by
  have hdir : dirOf inp = -1 ∨ dirOf inp = 0 ∨ dirOf inp = 1 := by
    cases hl : inp.left <;> cases hr : inp.right <;> simp [dirOf, hl, hr]
  have hInv := reachable_inv w hw
  rcases hInv with ⟨c, held, ns, rfl, hns⟩ |
    ⟨px, s, bl, sc, ec, cA, cB, held, pl, rfl, hbl, hx1, hx2⟩
  · rcases hns with rfl | rfl
    · rw [frame_menu_stay] at hf
      injection hf with hf
      subst hf
      refine ⟨?_, ?_, hdir⟩
      · intro e he hp
        exact absurd hp (by simp [menu_no_player _ _ _ e he])
      · intro e0 he0 hp0 _ _ _ _ _ _ _
        exact absurd hp0 (by simp [menu_no_player _ _ _ e0 he0])
    · have hw' : w' = mkRunning (stepX inp 0) (toString 1) [(stepX inp 0, playerY)]
          1 1 0 1 inp.space 1 ∨
        w' = mkRunning (stepX inp 0) (toString 0) [] 0 0 0 0 inp.space 0 := by
        cases hjp : (inp.space && !held) with
        | true =>
          rw [frame_menu_go_shoot inp c held hjp] at hf
          injection hf with hf
          exact Or.inl hf.symm
        | false =>
          rw [frame_menu_go_noshoot inp c held hjp] at hf
          injection hf with hf
          exact Or.inr hf.symm
      have hplayers : ∀ e ∈ w'.entities, e.2.isPlayer = true → e = (4, playerEnt (stepX inp 0)) := by
        rcases hw' with rfl | rfl
        · exact mk_players _ _ _ _ _ _ _ _ _
        · exact mk_players _ _ _ _ _ _ _ _ _
      refine ⟨?_, ?_, hdir⟩
      · intro e he hp
        rw [hplayers e he hp]
        exact ⟨_, rfl, (stepX_bounds inp 0).1, (stepX_bounds inp 0).2⟩
      · intro e0 he0 hp0 _ _ _ _ _ _ _
        exact absurd hp0 (by simp [menu_no_player _ _ _ e0 he0])
  · have hw' : w' = mkRunning (stepX inp px) (toString (sc + 1))
        (stepBullets bl ++ [(stepX inp px, playerY)]) (sc + 1) (ec + 1) cB 1 inp.space (pl + 1) ∨
      w' = mkRunning (stepX inp px) (toString sc) (stepBullets bl) sc ec cB 0 inp.space pl := by
      cases hjp : (inp.space && !held) with
      | true =>
        rw [frame_running_shoot inp px s bl sc ec cA cB pl held hbl hjp] at hf
        injection hf with hf
        exact Or.inl hf.symm
      | false =>
        rw [frame_running_noshoot inp px s bl sc ec cA cB pl held hbl hjp] at hf
        injection hf with hf
        exact Or.inr hf.symm
    have hplayers : ∀ e ∈ w'.entities, e.2.isPlayer = true →
        e = (4, playerEnt (stepX inp px)) := by
      rcases hw' with rfl | rfl
      · exact mk_players _ _ _ _ _ _ _ _ _
      · exact mk_players _ _ _ _ _ _ _ _ _
    refine ⟨?_, ?_, hdir⟩
    · intro e he hp
      rw [hplayers e he hp]
      exact ⟨_, rfl, (stepX_bounds inp px).1, (stepX_bounds inp px).2⟩
    · intro e0 he0 hp0 e1 he1 hp1 t0 t1 ht0 ht1
      have he0' := mk_players px s bl sc ec cA cB pl held e0 he0 hp0
      have he1' := hplayers e1 he1 hp1
      rw [he0'] at ht0
      rw [he1'] at ht1
      simp only [playerEnt] at ht0 ht1
      injection ht0 with ht0
      injection ht1 with ht1
      rw [← ht0, ← ht1]
      rfl

theorem run_null_mW2 : frame iNull mW2 = some mW2b :=
  frame_running_noshoot iNull (stepX iNull 0) (toString 0) [] 0 0 0 0 0 false
    (by intro q hq; cases hq) rfl

/-- Witness for C5 on a reachable running frame. -/
theorem C5_witness :
    (∀ e ∈ mW2b.entities, e.2.isPlayer = true →
      ∃ t, e.2.transform = some t ∧
        leftBound ≤ t.translation.x ∧ t.translation.x ≤ rightBound) ∧
    (∀ e0 ∈ mW2.entities, e0.2.isPlayer = true →
      ∀ e1 ∈ mW2b.entities, e1.2.isPlayer = true →
      ∀ t0 t1, e0.2.transform = some t0 → e1.2.transform = some t1 →
        t1.translation.x = clampR (t0.translation.x + dirOf iNull * PLAYER_SPEED * TIME_STEP)
          leftBound rightBound) ∧
    (dirOf iNull = -1 ∨ dirOf iNull = 0 ∨ dirOf iNull = 1) :=
  C5_player_x_clamped mW2 ⟨[iClick, iNull], reach_mW2⟩ iNull mW2b run_null_mW2

theorem run_held (rest : List FrameInput) (px : ℚ) (s : String) (bl : List (ℚ × ℚ))
    (sc ec cA cB pl : Nat) (hbl : ∀ q ∈ bl, playerY ≤ q.2)
    (hsp : ∀ i ∈ rest, i.space = true) (w' : World)
    (hr : runFrames rest (mkRunning px s bl sc ec cA cB true pl) = some w') :
    bulletCount w' = bl.length ∧ w'.shootingEvents.eventCount = ec := by
  induction rest generalizing px s bl sc ec cA cB pl with
  | nil =>
    injection hr with hr
    rw [← hr]
    exact ⟨bulletCount_mk px s bl sc ec cA cB pl true, rfl⟩
  | cons i rest' ih =>
    have hsp1 : i.space = true := hsp i (by simp)
    have hjp : (i.space && !(true : Bool)) = false := by rw [hsp1]; rfl
    simp only [runFrames,
      frame_running_noshoot i px s bl sc ec cA cB pl true hbl hjp] at hr
    rw [hsp1] at hr
    have := ih (stepX i px) (toString sc) (stepBullets bl) sc ec cB 0 pl
      (stepBullets_ge bl hbl) (fun j hj => hsp j (by simp [hj])) hr
    rw [this.1, this.2]
    exact ⟨by simp [stepBullets], rfl⟩

/-- C3 (amended): holding Space for `1 + rest.length` consecutive frames from
a reachable running world where it was not previously held spawns exactly one
bullet and emits exactly one ShootingEvent — both on the rising-edge frame —
and the spawned bullet sits at the player's current position with velocity
`(0, BULLET_SPEED)` and the `Bullet` marker, but *without* a `Collider`
component (the source attaches none; see the counterexample). -/
theorem C3_one_bullet_per_press (w : World) (hw : Reachable w)
    (hrun : w.appState = .GameRunning) (hheld : w.spaceWasHeld = false)
    (i1 : FrameInput) (hsp1 : i1.space = true)
    (rest : List FrameInput) (hsp : ∀ i ∈ rest, i.space = true)
    (w1 w2 : World) (hf1 : frame i1 w = some w1) (hr : runFrames rest w1 = some w2) :
    bulletCount w1 = bulletCount w + 1 ∧
    w1.shootingEvents.eventCount = w.shootingEvents.eventCount + 1 ∧
    bulletCount w2 = bulletCount w + 1 ∧
    w2.shootingEvents.eventCount = w.shootingEvents.eventCount + 1 ∧
    w1.lookup w.nextId = some (bulletAt (playerX w1) playerY) ∧
    (bulletAt (playerX w1) playerY).hasCollider = false ∧
    (bulletAt (playerX w1) playerY).velocity = some ⟨0, BULLET_SPEED⟩ := by
  have hInv := reachable_inv w hw
  rcases hInv with ⟨c, held, ns, rfl, hns⟩ |
    ⟨px, s, bl, sc, ec, cA, cB, held, pl, rfl, hbl, hx1, hx2⟩
  · exact absurd hrun (by simp [mkMenu])
  · have hheld' : held = false := hheld
    subst hheld'
    have hjp : (i1.space && !(false : Bool)) = true := by rw [hsp1]; rfl
    rw [frame_running_shoot i1 px s bl sc ec cA cB pl false hbl hjp] at hf1
    injection hf1 with hf1
    subst hf1
    have hbl1 : ∀ q ∈ stepBullets bl ++ [(stepX i1 px, playerY)], playerY ≤ q.2 := by
      intro q hq
      rcases List.mem_append.mp hq with h | h
      · exact stepBullets_ge bl hbl q h
      · simp only [List.mem_singleton] at h
        rw [h]
    rw [hsp1] at hr
    have hrest := run_held rest (stepX i1 px) (toString (sc + 1))
      (stepBullets bl ++ [(stepX i1 px, playerY)]) (sc + 1) (ec + 1) cB 1 (pl + 1)
      hbl1 hsp w2 hr
    have hpx : playerX (mkRunning (stepX i1 px) (toString (sc + 1))
        (stepBullets bl ++ [(stepX i1 px, playerY)]) (sc + 1) (ec + 1) cB 1 i1.space
        (pl + 1)) = stepX i1 px := by
      rw [playerX, single_player_entities _ (stepX i1 px) (toString (sc + 1))
        (stepBullets bl ++ [(stepX i1 px, playerY)]) rfl]
      rfl
    rw [hpx]
    have hcnt : bulletCount (mkRunning px s bl sc ec cA cB false pl) = bl.length :=
      bulletCount_mk px s bl sc ec cA cB pl false
    have hcnt1 : bulletCount (mkRunning (stepX i1 px) (toString (sc + 1))
        (stepBullets bl ++ [(stepX i1 px, playerY)]) (sc + 1) (ec + 1) cB 1 i1.space
        (pl + 1)) = bl.length + 1 := by
      rw [bulletCount_mk]
      simp [stepBullets]
    have hlook : (mkRunning (stepX i1 px) (toString (sc + 1))
        (stepBullets bl ++ [(stepX i1 px, playerY)]) (sc + 1) (ec + 1) cB 1 i1.space
        (pl + 1)).lookup (mkRunning px s bl sc ec cA cB false pl).nextId =
        some (bulletAt (stepX i1 px) playerY) := by
      show (mkRunning (stepX i1 px) (toString (sc + 1))
        (stepBullets bl ++ [(stepX i1 px, playerY)]) (sc + 1) (ec + 1) cB 1 i1.space
        (pl + 1)).lookup (6 + bl.length) = some (bulletAt (stepX i1 px) playerY)
      rw [lookup_mk_bullet _ _ _ _ _ _ _ _ _ _ (by omega)]
      have h1 : 6 + bl.length - 6 = (stepBullets bl).length := by
        simp [stepBullets]
      rw [h1, List.get?_concat_length]
      rfl
    refine ⟨by rw [hcnt, hcnt1], rfl, by rw [hrest.1, hcnt]; simp [stepBullets], ?_,
      hlook, rfl, rfl⟩
    rw [hrest.2]
    rfl

theorem run_space_mW2 : frame iSpace mW2 = some mW2c :=
  frame_running_shoot iSpace (stepX iNull 0) (toString 0) [] 0 0 0 0 0 false
    (by intro q hq; cases hq) rfl

theorem run_space_mW2c : frame iSpace mW2c = some mW2d :=
  frame_running_noshoot iSpace (stepX iSpace (stepX iNull 0)) (toString 1)
    [(stepX iSpace (stepX iNull 0), playerY)] 1 1 0 1 1 true
    (by intro q hq; rw [List.mem_singleton.mp hq]) rfl

/-- Witness for C3: Space held for two consecutive frames from `mW2` spawns
exactly one bullet and one ShootingEvent. -/
theorem C3_witness :
    bulletCount mW2c = bulletCount mW2 + 1 ∧
    mW2c.shootingEvents.eventCount = mW2.shootingEvents.eventCount + 1 ∧
    bulletCount mW2d = bulletCount mW2 + 1 ∧
    mW2d.shootingEvents.eventCount = mW2.shootingEvents.eventCount + 1 ∧
    mW2c.lookup mW2.nextId = some (bulletAt (playerX mW2c) playerY) ∧
    (bulletAt (playerX mW2c) playerY).hasCollider = false ∧
    (bulletAt (playerX mW2c) playerY).velocity = some ⟨0, BULLET_SPEED⟩ :=
  C3_one_bullet_per_press mW2 ⟨[iClick, iNull], reach_mW2⟩ rfl rfl iSpace rfl
    [iSpace] (by intro i hi; rw [List.mem_singleton.mp hi]; rfl) mW2c mW2d run_space_mW2
    (by simp only [runFrames, run_space_mW2c])

/-- Counterexample to C3 as stated: the bullet spawned by the shot in
`[iClick, iSpace]` (entity id 6) carries the `Bullet` marker and a `Velocity`
but no `Collider` component, contradicting the claim's "and a Collider
component". -/
theorem C3_counterexample :
    runFrames [iClick, iSpace] init = some mW2s ∧
    mW2s.lookup 6 = some (bulletAt (stepX iSpace 0) playerY) ∧
    (bulletAt (stepX iSpace 0) playerY).isBullet = true ∧
    (bulletAt (stepX iSpace 0) playerY).hasCollider = false :=
  ⟨reach_mW2s, rfl, rfl, rfl⟩

theorem key_eq_of_nodup (l : List (Nat × EntityRec))
    (hn : (l.map Prod.fst).Nodup) (a b : Nat × EntityRec)
    (ha : a ∈ l) (hb : b ∈ l) (hk : a.1 = b.1) : a = b := by
  induction l with
  | nil => cases ha
  | cons e rest ih =>
    rw [List.map_cons, List.nodup_cons] at hn
    rcases List.mem_cons.mp ha with rfl | ha' <;>
      rcases List.mem_cons.mp hb with rfl | hb'
    · rfl
    · exact absurd (hk ▸ List.mem_map_of_mem Prod.fst hb') hn.1
    · exact absurd (hk ▸ List.mem_map_of_mem Prod.fst ha') (by rw [← hk] at hn ⊢; exact hn.1)
    · exact ih hn.2 ha' hb'

theorem offscreen_iff (er : EntityRec) :
    offscreenBullet er = true ↔
      (er.isBullet = true ∧ ∃ t, er.transform = some t ∧
        t.translation.y < -(HEIGHT / 2)) := by
  cases htr : er.transform <;> simp [offscreenBullet, htr]

theorem menu_lookup_not_bullet (c : Color) (held : Bool) (ns : Option AppState)
    (id : Nat) (er : EntityRec) (h : (mkMenu c held ns).lookup id = some er) :
    er.isBullet = false := by
  rw [lookup_menu] at h
  split_ifs at h <;> cases h <;> rfl

theorem bullet_step (px : ℚ) (s : String) (bl : List (ℚ × ℚ))
    (sc ec cA cB pl : Nat) (held : Bool) (hbl : ∀ q ∈ bl, playerY ≤ q.2)
    (inp : FrameInput) (w' : World)
    (hf : frame inp (mkRunning px s bl sc ec cA cB held pl) = some w')
    (i : Nat) (q : ℚ × ℚ) (hq : bl.get? i = some q) :
    w'.lookup (6 + i) =
      some (bulletAt (q.1 + bulletVelocity.x * TIME_STEP)
        (q.2 + bulletVelocity.y * TIME_STEP)) := by
  have hi : i < bl.length := List.get?_eq_some.mp hq |>.1
  have hstep : (stepBullets bl).get? i =
      some (q.1 + bulletVelocity.x * TIME_STEP, q.2 + bulletVelocity.y * TIME_STEP) := by
    rw [stepBullets, List.get?_map, hq]
    rfl
  have hi' : i < (stepBullets bl).length := by
    simpa [stepBullets] using hi
  cases hjp : (inp.space && !held) with
  | true =>
    rw [frame_running_shoot inp px s bl sc ec cA cB pl held hbl hjp] at hf
    injection hf with hf
    rw [← hf, lookup_mk_bullet _ _ _ _ _ _ _ _ _ _ (by omega)]
    have h6 : 6 + i - 6 = i := by omega
    rw [h6, List.get?_append hi', hstep]
    rfl
  | false =>
    rw [frame_running_noshoot inp px s bl sc ec cA cB pl held hbl hjp] at hf
    injection hf with hf
    rw [← hf, lookup_mk_bullet _ _ _ _ _ _ _ _ _ _ (by omega)]
    have h6 : 6 + i - 6 = i := by omega
    rw [h6, hstep]
    rfl

theorem bullet_lookup_char (px : ℚ) (s : String) (bl : List (ℚ × ℚ))
    (sc ec cA cB pl : Nat) (held : Bool) (id : Nat) (er : EntityRec)
    (hb : (mkRunning px s bl sc ec cA cB held pl).lookup id = some er)
    (hbul : er.isBullet = true) :
    ∃ i q, bl.get? i = some q ∧ id = 6 + i ∧ er = bulletAt q.1 q.2 := by
  rcases lookup_mk_cases px s bl sc ec cA cB pl held id er hb with
    ⟨_, rfl⟩ | ⟨_, rfl⟩ | ⟨_, rfl⟩ | h
  · exact absurd hbul (by simp [cameraEnt])
  · exact absurd hbul (by simp [playerEnt])
  · exact absurd hbul (by simp [scoreTextEnt])
  · exact h

theorem bullet_persist_step (w w' : World) (hInv : Inv w) (inp : FrameInput)
    (hf : frame inp w = some w') (id : Nat) (er : EntityRec)
    (hb : w.lookup id = some er) (hbul : er.isBullet = true) :
    ∃ er', w'.lookup id = some er' ∧ er'.isBullet = true := by
  rcases hInv with ⟨c, held, ns, rfl, hns⟩ |
    ⟨px, s, bl, sc, ec, cA, cB, held, pl, rfl, hbl, hx1, hx2⟩
  · exact absurd hbul (by simp [menu_lookup_not_bullet c held ns id er hb])
  · obtain ⟨i, q, hq, rfl, rfl⟩ :=
      bullet_lookup_char px s bl sc ec cA cB pl held id er hb hbul
    exact ⟨_, bullet_step px s bl sc ec cA cB pl held hbl inp w' hf i q hq, rfl⟩

theorem bullet_persist_frames (l : List FrameInput) (w : World) (hInv : Inv w)
    (id : Nat) (er : EntityRec) (hb : w.lookup id = some er)
    (hbul : er.isBullet = true) (w2 : World) (hr : runFrames l w = some w2) :
    ∃ er2, w2.lookup id = some er2 ∧ er2.isBullet = true := by
  induction l generalizing w er with
  | nil =>
    injection hr with hr
    exact ⟨er, by rw [← hr]; exact hb, hbul⟩
  | cons i rest ih =>
    rw [runFrames] at hr
    cases hfi : frame i w with
    | none => rw [hfi] at hr; exact absurd hr (by simp)
    | some w1 =>
      rw [hfi] at hr
      obtain ⟨er1, hb1, hbul1⟩ := bullet_persist_step w w1 hInv i hfi id er hb hbul
      exact ih w1 (inv_frame w w1 hInv i hfi) er1 hb1 hbul1 hr

/-- C10: every bullet in a reachable world was spawned on the player's row
with velocity `(0, BULLET_SPEED)`, sits at or above that row and strictly
above the bottom edge, rises by exactly `BULLET_SPEED * TIME_STEP` on the next
frame (strictly increasing y), and is still present as a bullet after any
further input sequence — bullets are never despawned, since the cull condition
`y < -HEIGHT/2` can never hold and no other system removes bullets. -/
theorem C10_bullets_never_despawned (w : World) (hw : Reachable w)
    (id : Nat) (er : EntityRec) (hb : w.lookup id = some er)
    (hbul : er.isBullet = true) (inp : FrameInput) (w' : World)
    (hf : frame inp w = some w') (l : List FrameInput) (w2 : World)
    (hr : runFrames l w = some w2) :
    (∃ t, er.transform = some t ∧ er.velocity = some ⟨0, BULLET_SPEED⟩ ∧
      playerY ≤ t.translation.y ∧ -(HEIGHT / 2) < t.translation.y) ∧
    (∃ er' t t', w'.lookup id = some er' ∧ er'.isBullet = true ∧
      er.transform = some t ∧ er'.transform = some t' ∧
      t'.translation.y = t.translation.y + BULLET_SPEED * TIME_STEP ∧
      t.translation.y < t'.translation.y) ∧
    (∃ er2, w2.lookup id = some er2 ∧ er2.isBullet = true) := by
  have hInv := reachable_inv w hw
  rcases hInv with ⟨c, held, ns, rfl, hns⟩ | hR
  · exact absurd hbul (by simp [menu_lookup_not_bullet c held ns id er hb])
  · obtain ⟨px, s, bl, sc, ec, cA, cB, held, pl, rfl, hbl, hx1, hx2⟩ := hR
    obtain ⟨i, q, hq, rfl, rfl⟩ :=
      bullet_lookup_char px s bl sc ec cA cB pl held id er hb hbul
    have hmem : q ∈ bl := List.get?_mem hq
    have hy : playerY ≤ q.2 := hbl q hmem
    have hyb : -(HEIGHT / 2) < q.2 := by
      rw [playerY] at hy
      rw [HEIGHT] at hy ⊢
      norm_num at hy ⊢
      linarith
    refine ⟨⟨_, rfl, rfl, hy, hyb⟩, ?_, ?_⟩
    · refine ⟨_, _, _, bullet_step px s bl sc ec cA cB pl held hbl inp w' hf i q hq,
        rfl, rfl, rfl, rfl, ?_⟩
      show q.2 < q.2 + bulletVelocity.y * TIME_STEP
      rw [show bulletVelocity.y = BULLET_SPEED from rfl, BULLET_SPEED, TIME_STEP]
      norm_num
    · exact bullet_persist_frames l _
        (Or.inr ⟨px, s, bl, sc, ec, cA, cB, held, pl, rfl, hbl, hx1, hx2⟩)
        (6 + i) _ hb hbul w2 hr

/-- Witness for C10 on the bullet spawned in `[iClick, iSpace]`. -/
theorem C10_witness :
    (∃ t, (bulletAt (stepX iSpace 0) playerY).transform = some t ∧
      (bulletAt (stepX iSpace 0) playerY).velocity = some ⟨0, BULLET_SPEED⟩ ∧
      playerY ≤ t.translation.y ∧ -(HEIGHT / 2) < t.translation.y) ∧
    (∃ er' t t', mW3.lookup 6 = some er' ∧ er'.isBullet = true ∧
      (bulletAt (stepX iSpace 0) playerY).transform = some t ∧ er'.transform = some t' ∧
      t'.translation.y = t.translation.y + BULLET_SPEED * TIME_STEP ∧
      t.translation.y < t'.translation.y) ∧
    (∃ er2, mW3.lookup 6 = some er2 ∧ er2.isBullet = true) :=
  C10_bullets_never_despawned mW2s ⟨[iClick, iSpace], reach_mW2s⟩ 6
    (bulletAt (stepX iSpace 0) playerY) rfl rfl iNull mW3 run_null_mW2s
    [iNull] mW3 (by simp only [runFrames, run_null_mW2s])

theorem absent_step (w w' : World) (hInv : Inv w) (inp : FrameInput)
    (hf : frame inp w = some w') (id : Nat) (hid : id < w.nextId)
    (habs : w.lookup id = none) : id < w'.nextId ∧ w'.lookup id = none := by
  rcases hInv with ⟨c, held, ns, rfl, hns⟩ |
    ⟨px, s, bl, sc, ec, cA, cB, held, pl, rfl, hbl, hx1, hx2⟩
  · exfalso
    have hid4 : id < 4 := hid
    interval_cases id <;> simp [World.lookup, mkMenu, lfind] at habs
  · have h123 : id = 1 ∨ id = 2 ∨ id = 3 := by
      by_cases h0 : id = 0
      · subst h0
        exact absurd habs (by simp [World.lookup, mkRunning, lfind])
      by_cases h4 : id = 4
      · subst h4
        exact absurd habs (by simp [World.lookup, mkRunning, lfind])
      by_cases h5 : id = 5
      · subst h5
        exact absurd habs (by simp [World.lookup, mkRunning, lfind])
      by_cases h6 : 6 ≤ id
      · exfalso
        rw [lookup_mk_bullet _ _ _ _ _ _ _ _ _ _ h6] at habs
        have hnone : bl.get? (id - 6) = none := by
          cases hg : bl.get? (id - 6) with
          | none => rfl
          | some q => rw [hg] at habs; cases habs
        have hlen : bl.length ≤ id - 6 := List.get?_eq_none.mp hnone
        have : id < 6 + bl.length := hid
        omega
      · omega
    have hw' : ∃ px' s' bl' sc' ec' cA' cB' held' pl',
        w' = mkRunning px' s' bl' sc' ec' cA' cB' held' pl' := by
      cases hjp : (inp.space && !held) with
      | true =>
        rw [frame_running_shoot inp px s bl sc ec cA cB pl held hbl hjp] at hf
        injection hf with hf
        exact ⟨_, _, _, _, _, _, _, _, _, hf.symm⟩
      | false =>
        rw [frame_running_noshoot inp px s bl sc ec cA cB pl held hbl hjp] at hf
        injection hf with hf
        exact ⟨_, _, _, _, _, _, _, _, _, hf.symm⟩
    obtain ⟨px', s', bl', sc', ec', cA', cB', held', pl', rfl⟩ := hw'
    exact ⟨by show id < 6 + bl'.length; omega,
      lookup_mk_small px' s' bl' sc' ec' cA' cB' pl' held' id h123⟩

/-- C6: (a) on any world with distinct entity ids, the cull pass marks an
entity for despawn exactly when it is a Bullet whose transform satisfies
`y < -HEIGHT/2` — so it removes no Player or Enemy and no entity at or above
the bottom edge — and after the despawns are committed no such bullet remains;
(b) in reachable executions a despawned (absent) id never reappears in any
later tick, so a culled bullet is absent from the world in all subsequent
ticks. -/
theorem C6_cull_exact_and_permanent :
    (∀ w : World, (w.entities.map Prod.fst).Nodup →
      ∀ e ∈ w.entities,
        (e.1 ∈ (remove_offscreen_entities w).2 ↔
          (e.2.isBullet = true ∧ ∃ t, e.2.transform = some t ∧
            t.translation.y < -(HEIGHT / 2))) ∧
        (e ∈ (commitDespawns (remove_offscreen_entities w).2 w).entities →
          e.2.isBullet = true → ∀ t, e.2.transform = some t →
            -(HEIGHT / 2) ≤ t.translation.y)) ∧
    (∀ w : World, Reachable w → ∀ id, id < w.nextId → w.lookup id = none →
      ∀ l w', runFrames l w = some w' → w'.lookup id = none) := by
  constructor
  · intro w hn e he
    have hmem_iff : e.1 ∈ (remove_offscreen_entities w).2 ↔ offscreenBullet e.2 = true := by
      show e.1 ∈ (w.entities.filter (fun x => offscreenBullet x.2)).map Prod.fst ↔ _
      constructor
      · intro h
        obtain ⟨e', he', hk⟩ := List.mem_map.mp h
        obtain ⟨he'm, hoff⟩ := List.mem_filter.mp he'
        rw [key_eq_of_nodup w.entities hn e e' he he'm hk.symm]
        exact hoff
      · intro h
        exact List.mem_map_of_mem Prod.fst (List.mem_filter.mpr ⟨he, h⟩)
    constructor
    · rw [hmem_iff, offscreen_iff]
    · intro hc hbul t ht
      obtain ⟨hew, hkeep⟩ := List.mem_filter.mp hc
      by_contra hy
      rw [not_le] at hy
      have : e.1 ∈ (remove_offscreen_entities w).2 := by
        rw [hmem_iff, offscreen_iff]
        exact ⟨hbul, t, ht, hy⟩
      rw [Bool.not_eq_true', ← Bool.not_eq_true] at hkeep
      exact hkeep (by
        rw [List.contains_iff_exists_mem_beq]
        exact ⟨e.1, this, by simp⟩)
  · intro w hw id hid habs l
    have hInv := reachable_inv w hw
    clear hw
    induction l generalizing w with
    | nil =>
      intro w' hr
      injection hr with hr
      rw [← hr]
      exact habs
    | cons i rest ih =>
      intro w' hr
      rw [runFrames] at hr
      cases hfi : frame i w with
      | none => rw [hfi] at hr; exact absurd hr (by simp)
      | some w1 =>
        rw [hfi] at hr
        obtain ⟨hid1, habs1⟩ := absent_step w w1 hInv i hfi id hid habs
        exact ih w1 hid1 habs1 (inv_frame w w1 hInv i hfi) w' hr

/-- Witness for C6 on a concrete world with an offscreen-free bullet and on a
reachable world's absent id. -/
theorem C6_witness :
    (((0, bulletAt 1 2).1 ∈ (remove_offscreen_entities velEx).2 ↔
        ((0, bulletAt 1 2).2.isBullet = true ∧
          ∃ t, (0, bulletAt 1 2).2.transform = some t ∧
            t.translation.y < -(HEIGHT / 2))) ∧
      ((0, bulletAt 1 2) ∈ (commitDespawns (remove_offscreen_entities velEx).2 velEx).entities →
        (0, bulletAt 1 2).2.isBullet = true →
        ∀ t, (0, bulletAt 1 2).2.transform = some t →
          -(HEIGHT / 2) ≤ t.translation.y)) ∧
    mW3.lookup 1 = none :=
  ⟨C6_cull_exact_and_permanent.1 velEx (by decide) (0, bulletAt 1 2)
      (List.mem_cons_self _ _),
    C6_cull_exact_and_permanent.2 mW2s ⟨[iClick, iSpace], reach_mW2s⟩ 1 (by decide) rfl
      [iNull] mW3 (by simp only [runFrames, run_null_mW2s])⟩
